import Mathlib

/-!
# vtkViewport and vtkTransferAttributes: a shallow embedding

The embedding follows `Common/vtkViewport.cxx` and
`Infovis/vtkTransferAttributes.cxx`.

* C++ `double` values are modelled by exact rationals (`ℚ`); every statement
  below is therefore a statement of exact arithmetic.  Division by zero, which
  yields an infinity or a NaN on doubles, yields `0` on `ℚ`; statements that
  divide carry the hypotheses that exclude it.
* C++ `int` / `vtkIdType` values are modelled by `Int` / `Nat`.  The cast
  `(int)x` of a double is modelled by unbounded truncation (`toInt`); in C it
  is undefined when the truncated value is not an `int`, and the product and
  the sum under the cast are rounded to double before it.  The statements
  about `GetSize`, `GetOrigin`, `GetTiledSize` and `ComputeAspect` are
  therefore relations between these functions, or bound the rectangle to the
  unit square; the absolute pixel value at a rounding boundary is outside the
  model.
* A pointer that may be `NULL` is an `Option`.
* Member functions that mutate `this` take the object and return the new
  object; by-reference `double &` arguments are returned as a `Double2` (or a
  `Double3` when there is a third, unused, argument).
-/

/-! ## Fixed-size arrays -/

/-- Model of `double[2]`. -/
structure Double2 where
  c0 : ℚ
  c1 : ℚ
  deriving DecidableEq, Repr

/-- Model of `double[3]`. -/
structure Double3 where
  c0 : ℚ
  c1 : ℚ
  c2 : ℚ
  deriving DecidableEq, Repr

/-- Model of `double[4]`. -/
structure Double4 where
  c0 : ℚ
  c1 : ℚ
  c2 : ℚ
  c3 : ℚ
  deriving DecidableEq, Repr

/-- Model of `int[2]`. -/
structure Int2 where
  c0 : Int
  c1 : Int
  deriving DecidableEq, Repr

/-- The C cast `(int)x` of a double: truncation toward zero.  The C cast is
undefined when the truncated value is outside the range of `int`; the model
truncates without bound. -/
def toInt (x : ℚ) : Int :=
  if 0 ≤ x then ⌊x⌋ else ⌈x⌉

/-! ## The render surface -/

/-- The part of `vtkWindow` that `vtkViewport` reads: `GetSize()` and
`GetTileViewport()`. -/
structure vtkWindow where
  Size : Int2
  TileViewport : Double4
  deriving DecidableEq, Repr

/-! ## Props and prop collections

A prop is identified by a natural number (its address); a `vtkProp *` that may
be `NULL` is an `Option Nat`. -/

/-- The calls the viewport makes on a prop: `p->AddConsumer(this)`,
`p->RemoveConsumer(this)` and `p->ReleaseGraphicsResources(window)`. -/
inductive PropCall where
  | AddConsumer (p : Nat)
  | RemoveConsumer (p : Nat)
  | ReleaseGraphicsResources (p : Nat) (window : Option vtkWindow)
  deriving DecidableEq, Repr

namespace vtkCollection

/-- Modelled from the spec: `vtkCollection::AddItem` is not among the sources;
the item is added at the end of the collection. -/
def AddItem (c : List Nat) (a : Nat) : List Nat :=
  c ++ [a]

/-- Modelled from the spec: `vtkCollection::RemoveItem` is not among the
sources; the first occurrence of the item is removed, and nothing happens when
the item is absent. -/
def RemoveItem (c : List Nat) (a : Nat) : List Nat :=
  c.erase a

/-- Modelled from the spec: `vtkCollection::RemoveAllItems` is not among the
sources; it empties the collection. -/
def RemoveAllItems (_c : List Nat) : List Nat :=
  []

/-- Modelled from the spec: `vtkCollection::IsItemPresent` is not among the
sources; it is the containment test, answering the position of the item
counted from 1, or 0 when the item is absent. -/
def IsItemPresent (c : List Nat) (a : Nat) : Int :=
  if a ∈ c then (c.indexOf a : Int) + 1 else 0

end vtkCollection

/-! ## The viewport -/

/-- The data members of `vtkViewport` used by the coordinate pipeline and by
the prop registry. -/
structure vtkViewport where
  VTKWindow : Option vtkWindow
  Background : Double3
  Viewport : Double4
  WorldPoint : Double4
  DisplayPoint : Double3
  ViewPoint : Double3
  Aspect : Double2
  PixelAspect : Double2
  Size : Int2
  Origin : Int2
  Center : Double2
  Props : List Nat
  Actors2D : List Nat
  deriving DecidableEq, Repr

namespace vtkViewport

/-- The constructor `vtkViewport::vtkViewport()` (lines 28-73); `Center` is
left uninitialised by the source and is taken as zero here. -/
def new : vtkViewport where
  VTKWindow := none
  Background := ⟨0, 0, 0⟩
  Viewport := ⟨0, 0, 1, 1⟩
  WorldPoint := ⟨0, 0, 0, 0⟩
  DisplayPoint := ⟨0, 0, 0⟩
  ViewPoint := ⟨0, 0, 0⟩
  Aspect := ⟨1, 1⟩
  PixelAspect := ⟨1, 1⟩
  Size := ⟨0, 0⟩
  Origin := ⟨0, 0⟩
  Center := ⟨0, 0⟩
  Props := []
  Actors2D := []

/-- Modelled from the spec: `SetViewPoint(x,y,z)` is declared in `vtkViewport.h`
(not among the sources); it stores the three components in the `viewPoint`
register. -/
def SetViewPoint (v : vtkViewport) (x y z : ℚ) : vtkViewport :=
  { v with ViewPoint := ⟨x, y, z⟩ }

/-- Modelled from the spec: `SetDisplayPoint(x,y,z)` is declared in
`vtkViewport.h`; it stores the three components in the `displayPoint`
register. -/
def SetDisplayPoint (v : vtkViewport) (x y z : ℚ) : vtkViewport :=
  { v with DisplayPoint := ⟨x, y, z⟩ }

/-- Modelled from the spec: `SetWorldPoint(x,y,z,w)` is declared in
`vtkViewport.h`; it stores the four components in the `worldPoint`
register. -/
def SetWorldPoint (v : vtkViewport) (x y z w : ℚ) : vtkViewport :=
  { v with WorldPoint := ⟨x, y, z, w⟩ }

/-- Modelled from the spec: `SetAspect(double[2])` is declared in
`vtkViewport.h`; it stores the two components in `aspect`. -/
def SetAspect (v : vtkViewport) (a : Double2) : vtkViewport :=
  { v with Aspect := a }

/-- `vtkViewport::DisplayToView` (lines 157-178). -/
def DisplayToView (v : vtkViewport) : vtkViewport :=
  match v.VTKWindow with
  | some win =>
    let sizex : ℚ := win.Size.c0
    let sizey : ℚ := win.Size.c1
    let vx := 2 * (v.DisplayPoint.c0 - sizex * v.Viewport.c0) /
      (sizex * (v.Viewport.c2 - v.Viewport.c0)) - 1
    let vy := 2 * (v.DisplayPoint.c1 - sizey * v.Viewport.c1) /
      (sizey * (v.Viewport.c3 - v.Viewport.c1)) - 1
    let vz := v.DisplayPoint.c2
    v.SetViewPoint (vx * v.Aspect.c0) (vy * v.Aspect.c1) vz
  | none => v

/-- `vtkViewport::ViewToDisplay` (lines 181-203). -/
def ViewToDisplay (v : vtkViewport) : vtkViewport :=
  match v.VTKWindow with
  | some win =>
    let sizex : ℚ := win.Size.c0
    let sizey : ℚ := win.Size.c1
    let dx := (v.ViewPoint.c0 / v.Aspect.c0 + 1) *
      (sizex * (v.Viewport.c2 - v.Viewport.c0)) / 2 + sizex * v.Viewport.c0
    let dy := (v.ViewPoint.c1 / v.Aspect.c1 + 1) *
      (sizey * (v.Viewport.c3 - v.Viewport.c1)) / 2 + sizey * v.Viewport.c1
    v.SetDisplayPoint dx dy v.ViewPoint.c2
  | none => v

/-- `vtkViewport::ViewToWorld` (lines 206-210). -/
def ViewToWorld (v : vtkViewport) : vtkViewport :=
  v.SetWorldPoint v.ViewPoint.c0 v.ViewPoint.c1 v.ViewPoint.c2 1

/-- `vtkViewport::WorldToView` (lines 213-219). -/
def WorldToView (v : vtkViewport) : vtkViewport :=
  v.SetViewPoint v.WorldPoint.c0 v.WorldPoint.c1 v.WorldPoint.c2

/-- `vtkViewport::NormalizedDisplayToDisplay` (lines 472-484); the object is
not modified, the result is the new value of `(u, v)`. -/
def NormalizedDisplayToDisplay (vp : vtkViewport) (u v : ℚ) : Double2 :=
  match vp.VTKWindow with
  | some win => ⟨u * win.Size.c0, v * win.Size.c1⟩
  | none => ⟨u, v⟩

/-- `vtkViewport::DisplayToNormalizedDisplay` (lines 410-422). -/
def DisplayToNormalizedDisplay (vp : vtkViewport) (u v : ℚ) : Double2 :=
  match vp.VTKWindow with
  | some win => ⟨u / win.Size.c0, v / win.Size.c1⟩
  | none => ⟨u, v⟩

/-- `vtkViewport::LocalDisplayToDisplay` (lines 384-395). -/
def LocalDisplayToDisplay (vp : vtkViewport) (u v : ℚ) : Double2 :=
  match vp.VTKWindow with
  | some win => ⟨u, win.Size.c1 - v - 1⟩
  | none => ⟨u, v⟩

/-- `vtkViewport::DisplayToLocalDisplay` (lines 397-408). -/
def DisplayToLocalDisplay (vp : vtkViewport) (u v : ℚ) : Double2 :=
  match vp.VTKWindow with
  | some win => ⟨u, win.Size.c1 - v - 1⟩
  | none => ⟨u, v⟩

/-- `vtkViewport::GetSize` (lines 256-282): recomputes the cached `Size`
member and returns it. -/
def GetSize (vp : vtkViewport) : vtkViewport × Int2 :=
  match vp.VTKWindow with
  | some _ =>
    let p := vp.NormalizedDisplayToDisplay vp.Viewport.c0 vp.Viewport.c1
    let lowerLeft : Int2 := ⟨toInt (p.c0 + 1 / 2), toInt (p.c1 + 1 / 2)⟩
    let p2 := vp.NormalizedDisplayToDisplay vp.Viewport.c2 vp.Viewport.c3
    let size : Int2 :=
      ⟨toInt (p2.c0 + 1 / 2) - lowerLeft.c0, toInt (p2.c1 + 1 / 2) - lowerLeft.c1⟩
    ({ vp with Size := size }, size)
  | none => ({ vp with Size := ⟨0, 0⟩ }, ⟨0, 0⟩)

/-- `vtkViewport::GetTiledSize` (lines 221-253).  The window pointer is
dereferenced without a check, so the call has no result when no window is
attached. -/
def GetTiledSize (vp : vtkViewport) : Option Int2 :=
  match vp.VTKWindow with
  | none => none
  | some win =>
    let vport := vp.Viewport
    let tileViewPort := win.TileViewport
    let vpu := if vport.c0 < tileViewPort.c0 then tileViewPort.c0 else vport.c0
    let vpu := if vpu > tileViewPort.c2 then tileViewPort.c2 else vpu
    let vpv := if vport.c1 < tileViewPort.c1 then tileViewPort.c1 else vport.c1
    let vpv := if vpv > tileViewPort.c3 then tileViewPort.c3 else vpv
    let p := vp.NormalizedDisplayToDisplay vpu vpv
    let lowerLeft : Int2 := ⟨toInt (p.c0 + 1 / 2), toInt (p.c1 + 1 / 2)⟩
    let vpu2 := if vport.c2 > tileViewPort.c2 then tileViewPort.c2 else vport.c2
    let vpu2 := if vpu2 < tileViewPort.c0 then tileViewPort.c0 else vpu2
    let vpv2 := if vport.c3 > tileViewPort.c3 then tileViewPort.c3 else vport.c3
    let vpv2 := if vpv2 < tileViewPort.c1 then tileViewPort.c1 else vpv2
    let p2 := vp.NormalizedDisplayToDisplay vpu2 vpv2
    let usize := toInt (p2.c0 + 1 / 2) - lowerLeft.c0
    let vsize := toInt (p2.c1 + 1 / 2) - lowerLeft.c1
    let usize := if usize < 0 then 0 else usize
    let vsize := if vsize < 0 then 0 else vsize
    some ⟨usize, vsize⟩

/-- `vtkViewport::GetOrigin` (lines 285-301): recomputes the cached `Origin`
member and returns it. -/
def GetOrigin (vp : vtkViewport) : vtkViewport × Int2 :=
  match vp.VTKWindow with
  | some win =>
    let origin : Int2 :=
      ⟨toInt (vp.Viewport.c0 * (win.Size.c0 : ℚ) + 1 / 2),
       toInt (vp.Viewport.c1 * (win.Size.c1 : ℚ) + 1 / 2)⟩
    ({ vp with Origin := origin }, origin)
  | none => ({ vp with Origin := ⟨0, 0⟩ }, ⟨0, 0⟩)

/-- `vtkViewport::GetCenter` (lines 305-325). -/
def GetCenter (vp : vtkViewport) : vtkViewport × Double2 :=
  match vp.VTKWindow with
  | some win =>
    let center : Double2 :=
      ⟨(vp.Viewport.c2 + vp.Viewport.c0) / 2 * (win.Size.c0 : ℚ),
       (vp.Viewport.c3 + vp.Viewport.c1) / 2 * (win.Size.c1 : ℚ)⟩
    ({ vp with Center := center }, center)
  | none => ({ vp with Center := ⟨0, 0⟩ }, ⟨0, 0⟩)

/-- `vtkViewport::IsInViewport` (lines 328-347). -/
def IsInViewport (vp : vtkViewport) (x y : Int) : Int :=
  match vp.VTKWindow with
  | some win =>
    if vp.Viewport.c0 * (win.Size.c0 : ℚ) ≤ x ∧
       vp.Viewport.c2 * (win.Size.c0 : ℚ) ≥ x ∧
       vp.Viewport.c1 * (win.Size.c1 : ℚ) ≤ y ∧
       vp.Viewport.c3 * (win.Size.c1 : ℚ) ≥ y then 1 else 0
  | none => 0

/-- `vtkViewport::NormalizedDisplayToViewport` (lines 424-441). -/
def NormalizedDisplayToViewport (vp : vtkViewport) (u v : ℚ) : Double2 :=
  match vp.VTKWindow with
  | some _ =>
    let vpo := vp.NormalizedDisplayToDisplay vp.Viewport.c0 vp.Viewport.c1
    let p := vp.NormalizedDisplayToDisplay u v
    ⟨p.c0 - vpo.c0 - 1 / 2, p.c1 - vpo.c1 - 1 / 2⟩
  | none => ⟨u, v⟩

/-- `vtkViewport::ViewportToNormalizedDisplay` (lines 487-506). -/
def ViewportToNormalizedDisplay (vp : vtkViewport) (u v : ℚ) : Double2 :=
  match vp.VTKWindow with
  | some _ =>
    let vpo := vp.NormalizedDisplayToDisplay vp.Viewport.c0 vp.Viewport.c1
    vp.DisplayToNormalizedDisplay (u + vpo.c0 + 1 / 2) (v + vpo.c1 + 1 / 2)
  | none => ⟨u, v⟩

/-- `vtkViewport::ViewportToNormalizedViewport` (lines 443-463); the call to
`GetSize` refreshes the cached `Size`, so the object is returned too. -/
def ViewportToNormalizedViewport (vp : vtkViewport) (u v : ℚ) : vtkViewport × Double2 :=
  match vp.VTKWindow with
  | some _ =>
    let r := vp.GetSize
    (r.1, ⟨u / ((r.2.c0 : ℚ) - 1), v / ((r.2.c1 : ℚ) - 1)⟩)
  | none => (vp, ⟨u, v⟩)

/-- `vtkViewport::NormalizedViewportToViewport` (lines 508-527). -/
def NormalizedViewportToViewport (vp : vtkViewport) (u v : ℚ) : vtkViewport × Double2 :=
  match vp.VTKWindow with
  | some _ =>
    let r := vp.GetSize
    (r.1, ⟨u * ((r.2.c0 : ℚ) - 1), v * ((r.2.c1 : ℚ) - 1)⟩)
  | none => (vp, ⟨u, v⟩)

/-- `vtkViewport::NormalizedViewportToView` (lines 465-470); `z` is not used
and stays as it is. -/
def NormalizedViewportToView (vp : vtkViewport) (x y z : ℚ) : Double3 :=
  ⟨(2 * x - 1) * vp.Aspect.c0, (2 * y - 1) * vp.Aspect.c1, z⟩

/-- `vtkViewport::ViewToNormalizedViewport` (lines 529-534). -/
def ViewToNormalizedViewport (vp : vtkViewport) (x y z : ℚ) : Double3 :=
  ⟨(x / vp.Aspect.c0 + 1) / 2, (y / vp.Aspect.c1 + 1) / 2, z⟩

/-- `vtkViewport::ComputeAspect` (lines 536-562). -/
def ComputeAspect (vp : vtkViewport) : vtkViewport :=
  match vp.VTKWindow with
  | some win =>
    let size := win.Size
    let vport := vp.Viewport
    let lowerLeft : Int2 :=
      ⟨toInt (vport.c0 * (size.c0 : ℚ) + 1 / 2), toInt (vport.c1 * (size.c1 : ℚ) + 1 / 2)⟩
    let upperRight : Int2 :=
      ⟨toInt (vport.c2 * (size.c0 : ℚ) + 1 / 2), toInt (vport.c3 * (size.c1 : ℚ) + 1 / 2)⟩
    let upperRight : Int2 := ⟨upperRight.c0 - 1, upperRight.c1 - 1⟩
    let aspect : Double2 :=
      ⟨((upperRight.c0 - lowerLeft.c0 + 1 : Int) : ℚ) /
          ((upperRight.c1 - lowerLeft.c1 + 1 : Int) : ℚ) * vp.PixelAspect.c0,
       1 * vp.PixelAspect.c1⟩
    vp.SetAspect aspect
  | none => vp

/-- `vtkViewport::HasProp` (lines 104-107). -/
def HasProp (vp : vtkViewport) (p : Option Nat) : Int :=
  match p with
  | some a => if vtkCollection.IsItemPresent vp.Props a ≠ 0 then 1 else 0
  | none => 0

/-- `vtkViewport::AddProp` (lines 109-116); the result is the new object and
the calls made on props. -/
def AddProp (vp : vtkViewport) (p : Option Nat) : vtkViewport × List PropCall :=
  match p with
  | some a =>
    if vp.HasProp p = 0 then
      ({ vp with Props := vtkCollection.AddItem vp.Props a }, [PropCall.AddConsumer a])
    else (vp, [])
  | none => (vp, [])

/-- `vtkViewport::RemoveProp` (lines 118-126). -/
def RemoveProp (vp : vtkViewport) (p : Option Nat) : vtkViewport × List PropCall :=
  match p with
  | some a =>
    if vp.HasProp p ≠ 0 then
      ({ vp with Props := vtkCollection.RemoveItem vp.Props a },
        [PropCall.ReleaseGraphicsResources a vp.VTKWindow, PropCall.RemoveConsumer a])
    else (vp, [])
  | none => (vp, [])

/-- `vtkViewport::RemoveActor2D` (lines 98-102). -/
def RemoveActor2D (vp : vtkViewport) (p : Option Nat) : vtkViewport × List PropCall :=
  match p with
  | some a => RemoveProp { vp with Actors2D := vtkCollection.RemoveItem vp.Actors2D a } p
  | none => RemoveProp vp p

/-- `vtkViewport::RemoveAllProps` (lines 128-138): every prop of the
collection, in order, is asked to release its resources and loses the viewport
as consumer; then the collection is emptied. -/
def RemoveAllProps (vp : vtkViewport) : vtkViewport × List PropCall :=
  ({ vp with Props := vtkCollection.RemoveAllItems vp.Props },
    vp.Props.foldr
      (fun aProp calls =>
        PropCall.ReleaseGraphicsResources aProp vp.VTKWindow ::
          PropCall.RemoveConsumer aProp :: calls) [])

/-- A call of one of the four operations that change the prop collection. -/
inductive PropOp where
  | AddProp (p : Option Nat)
  | RemoveProp (p : Option Nat)
  | RemoveActor2D (p : Option Nat)
  | RemoveAllProps
  deriving DecidableEq, Repr

/-- Performs one call on a viewport and appends the calls it makes on props to
those made so far. -/
def callOp (s : vtkViewport × List PropCall) (op : PropOp) : vtkViewport × List PropCall :=
  match op with
  | .AddProp p => ((s.1.AddProp p).1, s.2 ++ (s.1.AddProp p).2)
  | .RemoveProp p => ((s.1.RemoveProp p).1, s.2 ++ (s.1.RemoveProp p).2)
  | .RemoveActor2D p => ((s.1.RemoveActor2D p).1, s.2 ++ (s.1.RemoveActor2D p).2)
  | .RemoveAllProps => (s.1.RemoveAllProps.1, s.2 ++ s.1.RemoveAllProps.2)

/-- Performs a finite sequence of calls, first to last. -/
def callOps (ops : List PropOp) (s : vtkViewport × List PropCall) :
    vtkViewport × List PropCall :=
  ops.foldl callOp s

/-- The number of `AddConsumer` calls made on prop `p`. -/
def addConsumerCalls (calls : List PropCall) (p : Nat) : Nat :=
  calls.count (PropCall.AddConsumer p)

/-- The number of `RemoveConsumer` calls made on prop `p`. -/
def removeConsumerCalls (calls : List PropCall) (p : Nat) : Nat :=
  calls.count (PropCall.RemoveConsumer p)

end vtkViewport

/-! ## The attribute transfer filter

Attribute arrays are modelled as single-component integer arrays
(`List Int`), identifiers as values of an arbitrary type with decidable
equality, positions (`vtkIdType`) as `Nat`. -/

/-- The enumeration `vtkDataObject::FieldAssociations`. -/
inductive FieldAssociations where
  | FIELD_ASSOCIATION_POINTS
  | FIELD_ASSOCIATION_CELLS
  | FIELD_ASSOCIATION_NONE
  | FIELD_ASSOCIATION_POINTS_THEN_CELLS
  | FIELD_ASSOCIATION_VERTICES
  | FIELD_ASSOCIATION_EDGES
  | FIELD_ASSOCIATION_ROWS
  deriving DecidableEq, Repr

/-- The part of `vtkDataSetAttributes` the filter reads: the pedigree
identifier array (possibly absent) and the named attribute arrays. -/
structure vtkDataSetAttributes (ι : Type) where
  PedigreeIds : Option (List ι)
  Arrays : List (String × List Int)
  deriving DecidableEq, Repr

/-- The runtime kinds of `vtkDataObject` the filter distinguishes through
`SafeDownCast`, each with its attribute sets. -/
inductive vtkDataObject (ι : Type) where
  | DataSet (PointData CellData : vtkDataSetAttributes ι)
  | Graph (VertexData EdgeData : vtkDataSetAttributes ι)
  | Table (RowData : vtkDataSetAttributes ι)
  | Other
  deriving DecidableEq, Repr

/-- The configuration members of `vtkTransferAttributes`. -/
structure vtkTransferAttributes where
  DirectMapping : Bool
  DefaultValue : Int
  SourceArrayName : Option String
  TargetArrayName : Option String
  SourceFieldType : FieldAssociations
  TargetFieldType : FieldAssociations
  deriving DecidableEq, Repr

namespace vtkTransferAttributes

open FieldAssociations

/-- The `if / else if` chains of `RequestData` (lines 114-184) that pick the
attribute set of an input from its runtime kind and the configured
association; `none` is the final `else` branch (the error return). -/
def selectAttributes {ι : Type} (input : vtkDataObject ι) (fieldType : FieldAssociations) :
    Option (vtkDataSetAttributes ι) :=
  match input, fieldType with
  | .DataSet pd _, FIELD_ASSOCIATION_POINTS => some pd
  | .DataSet _ cd, FIELD_ASSOCIATION_CELLS => some cd
  | .Graph vd _, FIELD_ASSOCIATION_VERTICES => some vd
  | .Graph _ ed, FIELD_ASSOCIATION_EDGES => some ed
  | .Table rd, FIELD_ASSOCIATION_ROWS => some rd
  | _, _ => none

/-- The output object with the attribute set selected by `fieldType` replaced
(the effect of mutating `dsa_out`, which points into `output`). -/
def withAttributes {ι : Type} (output : vtkDataObject ι) (fieldType : FieldAssociations)
    (dsa : vtkDataSetAttributes ι) : vtkDataObject ι :=
  match output, fieldType with
  | .DataSet _ cd, FIELD_ASSOCIATION_POINTS => .DataSet dsa cd
  | .DataSet pd _, FIELD_ASSOCIATION_CELLS => .DataSet pd dsa
  | .Graph _ ed, FIELD_ASSOCIATION_VERTICES => .Graph dsa ed
  | .Graph vd _, FIELD_ASSOCIATION_EDGES => .Graph vd dsa
  | .Table _, FIELD_ASSOCIATION_ROWS => .Table dsa
  | o, _ => o

/-- The association table in the words of the specification (a second
definition, to compare `selectAttributes` with): meshes carry points and
cells, graphs carry vertices and edges, tables carry rows. -/
def associationSupported {ι : Type} (input : vtkDataObject ι)
    (fieldType : FieldAssociations) : Bool :=
  match input with
  | .DataSet _ _ =>
    decide (fieldType = FIELD_ASSOCIATION_POINTS ∨ fieldType = FIELD_ASSOCIATION_CELLS)
  | .Graph _ _ =>
    decide (fieldType = FIELD_ASSOCIATION_VERTICES ∨ fieldType = FIELD_ASSOCIATION_EDGES)
  | .Table _ => decide (fieldType = FIELD_ASSOCIATION_ROWS)
  | .Other => false

/-- Modelled from the spec: `vtkDataSetAttributes::GetAbstractArray(name)` is
not among the sources; it returns the attribute array stored under the name,
or `NULL`. -/
def GetAbstractArray {ι : Type} (dsa : vtkDataSetAttributes ι) (name : String) :
    Option (List Int) :=
  dsa.Arrays.lookup name

/-- Modelled from the spec: `vtkDataSetAttributes::AddArray` is not among the
sources; the array is added to the attribute set under its name (an array
already stored under that name is replaced by it). -/
def AddArray {ι : Type} (dsa : vtkDataSetAttributes ι) (name : String) (arr : List Int) :
    vtkDataSetAttributes ι :=
  if (dsa.Arrays.lookup name).isSome then
    { dsa with Arrays := dsa.Arrays.map (fun p => if p.1 = name then (name, arr) else p) }
  else
    { dsa with Arrays := dsa.Arrays ++ [(name, arr)] }

/-- The assignment `m[k] = v` of a `std::map`; the newest binding of a key is
the one found by `List.lookup`. -/
def mapAssign {κ : Type} (m : List (κ × Nat)) (k : κ) (v : Nat) : List (κ × Nat) :=
  (k, v) :: m

/-- The read `m[k]` of a `std::map<_, vtkIdType>`: the value bound to `k`; a
key that is absent is first inserted with the value `0`.  Returns the value
read and the map after the read. -/
def mapIndex {κ : Type} [DecidableEq κ] (m : List (κ × Nat)) (k : κ) :
    Nat × List (κ × Nat) :=
  match m.lookup k with
  | some v => (v, m)
  | none => (0, (k, 0) :: m)

/-- The test `m.count(k)` of a `std::map`, as a condition. -/
def mapCount {κ : Type} [DecidableEq κ] (m : List (κ × Nat)) (k : κ) : Bool :=
  (m.lookup k).isSome

/-- The identity map of direct mapping (lines 220-223):
`for (i = 0; i < n; i++) sourceIndexToTargetIndex[i] = i`. -/
def identityMap (n : Nat) : List (Nat × Nat) :=
  (List.range n).foldl (fun m i => mapAssign m i i) []

/-- The first loop of the identifier mapping (lines 234-237):
`sourceInputIdMap[sourceId[i]] = i` for every source position. -/
def sourceInputIdMap {ι : Type} (sourceIdArray : List ι) : List (ι × Nat) :=
  (List.range sourceIdArray.length).foldl
    (fun m i =>
      match sourceIdArray[i]? with
      | some id => mapAssign m id i
      | none => m) []

/-- The second loop of the identifier mapping (lines 240-247): for every
target position whose identifier is a key of `sourceInputIdMap`, bind the
source position found there to the target position. -/
def sourceIndexToTargetIndex {ι : Type} [DecidableEq ι] (sourceIdArray targetIdArray : List ι) :
    List (Nat × Nat) :=
  let idMap := sourceInputIdMap sourceIdArray
  (List.range targetIdArray.length).foldl
    (fun m i =>
      match targetIdArray[i]? with
      | some id =>
        if mapCount idMap id then mapAssign m (mapIndex idMap id).1 i else m
      | none => m) []

/-- The state of the copy loop: the position map (which the reads `m[i]` may
extend), the output array, and the positions handed to `SetTuple` so far. -/
structure CopyState where
  index : List (Nat × Nat)
  targetArray : List Int
  written : List Nat
  deriving DecidableEq, Repr

/-- One iteration of the copy loop (lines 262-276).  A negative source value
is reported (the report reads `sourceIndexToTargetIndex[i]`) and skipped;
otherwise the value is stored at position `sourceIndexToTargetIndex[i]` of the
output array.  `SetTuple` does not check the position: a position outside the
array is recorded in `written` and leaves the modelled array as it is. -/
def copyStep (sourceArray : List Int) (st : CopyState) (i : Nat) : CopyState :=
  let value := sourceArray.getD i 0
  let r := mapIndex st.index i
  if value < 0 then
    { st with index := r.2 }
  else
    { index := r.2, targetArray := st.targetArray.set r.1 value,
      written := st.written ++ [r.1] }

/-- The array transfer (lines 250-276): the output array has one element per
target element, every element is first set to the default value, then the
copy loop runs over the positions of the source array. -/
def transferArray (defaultValue : Int) (index : List (Nat × Nat)) (sourceArray : List Int)
    (numberOfTargetTuples : Nat) : CopyState :=
  (List.range sourceArray.length).foldl (copyStep sourceArray)
    { index := index, targetArray := List.replicate numberOfTargetTuples defaultValue,
      written := [] }

/-- `vtkTransferAttributes::RequestData` (lines 97-282).  The result is the
returned status together with the output data object; the output starts as a
shallow copy of the target input.  There is no result (`none`) when the named
source array does not exist, since the null pointer is dereferenced. -/
def RequestData {ι : Type} [DecidableEq ι] (self : vtkTransferAttributes)
    (targetInput sourceInput : vtkDataObject ι) : Option (Int × vtkDataObject ι) :=
  let output := targetInput
  match selectAttributes sourceInput self.SourceFieldType with
  | none => some (0, output)
  | some dsa_source =>
  match selectAttributes targetInput self.TargetFieldType with
  | none => some (0, output)
  | some dsa_target =>
  match self.SourceArrayName, self.TargetArrayName with
  | some sourceArrayName, some targetArrayName =>
    match dsa_source.PedigreeIds with
    | none => some (0, output)
    | some sourceIdArray =>
    match dsa_target.PedigreeIds with
    | none => some (0, output)
    | some targetIdArray =>
      if self.DirectMapping ∧ sourceIdArray.length > targetIdArray.length then
        some (0, output)
      else
        let index :=
          if self.DirectMapping then identityMap sourceIdArray.length
          else sourceIndexToTargetIndex sourceIdArray targetIdArray
        match GetAbstractArray dsa_source sourceArrayName with
        | none => none
        | some sourceArray =>
          let st := transferArray self.DefaultValue index sourceArray targetIdArray.length
          some (1, withAttributes output self.TargetFieldType
            (AddArray dsa_target targetArrayName st.targetArray))
  | _, _ => some (0, output)

end vtkTransferAttributes

/-! ## Theorems: the viewport -/

/-- C1: with a surface of non-zero width and height, a non-degenerate viewport
rectangle and non-zero aspect components, storing a display point `p`,
converting it with `DisplayToView` and back with `ViewToDisplay` leaves the
display point register equal to `p` (exact arithmetic).  The register is
rebuilt from the view point alone: the same holds when the display point
register is overwritten with any `q` between the two calls. -/
theorem displayToView_viewToDisplay_roundtrip (v : vtkViewport) (win : vtkWindow)
    (p : Double3) (hwin : v.VTKWindow = some win)
    (hW : win.Size.c0 ≠ 0) (hH : win.Size.c1 ≠ 0)
    (hx : v.Viewport.c0 ≠ v.Viewport.c2) (hy : v.Viewport.c1 ≠ v.Viewport.c3)
    (ha0 : v.Aspect.c0 ≠ 0) (ha1 : v.Aspect.c1 ≠ 0) :
    (vtkViewport.ViewToDisplay
      (vtkViewport.DisplayToView { v with DisplayPoint := p })).DisplayPoint = p ∧
    ∀ q : Double3,
      (vtkViewport.ViewToDisplay
        { vtkViewport.DisplayToView { v with DisplayPoint := p } with
          DisplayPoint := q }).DisplayPoint = p := by
  have hWq : (win.Size.c0 : ℚ) ≠ 0 := by exact_mod_cast hW
  have hHq : (win.Size.c1 : ℚ) ≠ 0 := by exact_mod_cast hH
  have hxq : v.Viewport.c2 - v.Viewport.c0 ≠ 0 := fun h => hx (by linarith)
  have hyq : v.Viewport.c3 - v.Viewport.c1 ≠ 0 := fun h => hy (by linarith)
  obtain ⟨p0, p1, p2⟩ := p
  constructor
  · simp only [vtkViewport.DisplayToView, vtkViewport.ViewToDisplay, hwin,
      vtkViewport.SetViewPoint, vtkViewport.SetDisplayPoint, Double3.mk.injEq, and_true]
    constructor
    · field_simp
      ring
    · field_simp
      ring
  · intro q
    simp only [vtkViewport.DisplayToView, vtkViewport.ViewToDisplay, hwin,
      vtkViewport.SetViewPoint, vtkViewport.SetDisplayPoint, Double3.mk.injEq, and_true]
    constructor
    · field_simp
      ring
    · field_simp
      ring

/-- The C1 round trip at a concrete viewport: a 640x480 surface, the rectangle
`(1/4, 0, 1, 1/2)`, aspect `(4/3, 1)` and the display point `(100, 200, 1/2)`,
with the display point register overwritten by `(0, 0, 0)` between the two
conversions. -/
theorem displayToView_viewToDisplay_roundtrip_witness :
    (vtkViewport.ViewToDisplay
      { vtkViewport.DisplayToView
          { ({ vtkViewport.new with
                VTKWindow := some ⟨⟨640, 480⟩, ⟨0, 0, 1, 1⟩⟩
                Viewport := ⟨1 / 4, 0, 1, 1 / 2⟩
                Aspect := ⟨4 / 3, 1⟩ } : vtkViewport) with
            DisplayPoint := ⟨100, 200, 1 / 2⟩ } with
        DisplayPoint := ⟨0, 0, 0⟩ }).DisplayPoint = ⟨100, 200, 1 / 2⟩ :=
  (displayToView_viewToDisplay_roundtrip _ ⟨⟨640, 480⟩, ⟨0, 0, 1, 1⟩⟩ ⟨100, 200, 1 / 2⟩ rfl
    (by decide) (by decide) (by norm_num) (by norm_num) (by norm_num) (by norm_num)).2
    ⟨0, 0, 0⟩

/-! ### Conversions without a surface -/

/-- C7 (as stated, refuted): with no surface attached `ViewToWorld` is not a
no-op; on a freshly constructed viewport it changes the world point register
from `(0,0,0,0)` to `(0,0,0,1)`, and `NormalizedViewportToView` changes its
by-reference arguments `(0, 0)` to `(-1, -1)`. -/
theorem viewToWorld_without_surface_not_noop :
    vtkViewport.new.VTKWindow = none ∧
    (vtkViewport.ViewToWorld vtkViewport.new).WorldPoint = ⟨0, 0, 0, 1⟩ ∧
    (vtkViewport.ViewToWorld vtkViewport.new).WorldPoint ≠ vtkViewport.new.WorldPoint ∧
    vtkViewport.NormalizedViewportToView vtkViewport.new 0 0 0 = ⟨-1, -1, 0⟩ := by
  refine ⟨rfl, rfl, ?_, ?_⟩
  · simp [vtkViewport.ViewToWorld, vtkViewport.SetWorldPoint, vtkViewport.new]
  · simp [vtkViewport.NormalizedViewportToView, vtkViewport.new]

/-- C7 (amended): with no surface attached, the ten conversions that consult
the surface (`DisplayToView`, `ViewToDisplay`, `NormalizedDisplayToDisplay`,
`DisplayToNormalizedDisplay`, `NormalizedDisplayToViewport`,
`ViewportToNormalizedDisplay`, `ViewportToNormalizedViewport`,
`NormalizedViewportToViewport`, `LocalDisplayToDisplay`,
`DisplayToLocalDisplay`) leave the whole object, hence the three registers,
and their by-reference arguments unchanged; `ViewToWorld`, `WorldToView`,
`NormalizedViewportToView` and `ViewToNormalizedViewport` do not consult the
surface and still perform their conversion. -/
theorem conversions_without_surface (vp : vtkViewport) (h : vp.VTKWindow = none)
    (u v x y z : ℚ) :
    vp.DisplayToView = vp ∧ vp.ViewToDisplay = vp ∧
    vp.NormalizedDisplayToDisplay u v = ⟨u, v⟩ ∧
    vp.DisplayToNormalizedDisplay u v = ⟨u, v⟩ ∧
    vp.NormalizedDisplayToViewport u v = ⟨u, v⟩ ∧
    vp.ViewportToNormalizedDisplay u v = ⟨u, v⟩ ∧
    vp.ViewportToNormalizedViewport u v = (vp, ⟨u, v⟩) ∧
    vp.NormalizedViewportToViewport u v = (vp, ⟨u, v⟩) ∧
    vp.LocalDisplayToDisplay u v = ⟨u, v⟩ ∧
    vp.DisplayToLocalDisplay u v = ⟨u, v⟩ ∧
    vp.ViewToWorld = { vp with WorldPoint := ⟨vp.ViewPoint.c0, vp.ViewPoint.c1, vp.ViewPoint.c2, 1⟩ } ∧
    vp.WorldToView = { vp with ViewPoint := ⟨vp.WorldPoint.c0, vp.WorldPoint.c1, vp.WorldPoint.c2⟩ } ∧
    vp.NormalizedViewportToView x y z = ⟨(2 * x - 1) * vp.Aspect.c0, (2 * y - 1) * vp.Aspect.c1, z⟩ ∧
    vp.ViewToNormalizedViewport x y z = ⟨(x / vp.Aspect.c0 + 1) / 2, (y / vp.Aspect.c1 + 1) / 2, z⟩ := by
  simp [vtkViewport.DisplayToView, vtkViewport.ViewToDisplay,
    vtkViewport.NormalizedDisplayToDisplay, vtkViewport.DisplayToNormalizedDisplay,
    vtkViewport.NormalizedDisplayToViewport, vtkViewport.ViewportToNormalizedDisplay,
    vtkViewport.ViewportToNormalizedViewport, vtkViewport.NormalizedViewportToViewport,
    vtkViewport.LocalDisplayToDisplay, vtkViewport.DisplayToLocalDisplay,
    vtkViewport.ViewToWorld, vtkViewport.WorldToView, vtkViewport.SetWorldPoint,
    vtkViewport.SetViewPoint, vtkViewport.NormalizedViewportToView,
    vtkViewport.ViewToNormalizedViewport, h]

/-- The amended C7 on a freshly constructed viewport, which has no surface. -/
theorem conversions_without_surface_witness :
    vtkViewport.new.DisplayToView = vtkViewport.new ∧
    vtkViewport.new.NormalizedDisplayToDisplay 3 4 = ⟨3, 4⟩ ∧
    vtkViewport.new.LocalDisplayToDisplay 3 4 = ⟨3, 4⟩ :=
  have h := conversions_without_surface vtkViewport.new rfl 3 4 0 0 0
  ⟨h.1, h.2.2.1, h.2.2.2.2.2.2.2.2.1⟩

/-! ### `IsInViewport` -/

/-- With a surface attached `IsInViewport` answers 1 exactly on the closed
rectangle scaled to the surface size. -/
theorem isInViewport_eq_one_iff (vp : vtkViewport) (win : vtkWindow)
    (h : vp.VTKWindow = some win) (x y : Int) :
    vp.IsInViewport x y = 1 ↔
      vp.Viewport.c0 * (win.Size.c0 : ℚ) ≤ x ∧ (x : ℚ) ≤ vp.Viewport.c2 * (win.Size.c0 : ℚ) ∧
      vp.Viewport.c1 * (win.Size.c1 : ℚ) ≤ y ∧ (y : ℚ) ≤ vp.Viewport.c3 * (win.Size.c1 : ℚ) := by
  simp only [vtkViewport.IsInViewport, h, ge_iff_le]
  split_ifs with hc
  · simp only [true_iff]
    exact hc
  · simp only [zero_ne_one, false_iff]
    exact hc

/-- `IsInViewport` answers 0 or 1. -/
theorem isInViewport_zero_or_one (vp : vtkViewport) (x y : Int) :
    vp.IsInViewport x y = 0 ∨ vp.IsInViewport x y = 1 := by
  unfold vtkViewport.IsInViewport
  split
  · split_ifs
    · exact Or.inr rfl
    · exact Or.inl rfl
  · exact Or.inl rfl

/-- C8: `IsInViewport(x,y)` returns 1 if and only if a surface is attached and
`R.x0*W <= x <= R.x1*W` and `R.y0*H <= y <= R.y1*H` (all four edges
inclusive); otherwise it returns 0, in particular for every point when no
surface is attached. -/
theorem isInViewport_spec (vp : vtkViewport) (x y : Int) :
    (vp.IsInViewport x y = 1 ↔
      ∃ win, vp.VTKWindow = some win ∧
        vp.Viewport.c0 * (win.Size.c0 : ℚ) ≤ x ∧ (x : ℚ) ≤ vp.Viewport.c2 * (win.Size.c0 : ℚ) ∧
        vp.Viewport.c1 * (win.Size.c1 : ℚ) ≤ y ∧ (y : ℚ) ≤ vp.Viewport.c3 * (win.Size.c1 : ℚ)) ∧
    (vp.IsInViewport x y = 0 ∨ vp.IsInViewport x y = 1) ∧
    vtkViewport.IsInViewport { vp with VTKWindow := none } x y = 0 := by
  refine ⟨?_, isInViewport_zero_or_one vp x y, rfl⟩
  cases hw : vp.VTKWindow with
  | none => simp [vtkViewport.IsInViewport, hw]
  | some win =>
    rw [isInViewport_eq_one_iff vp win hw]
    simp

/-! ### `GetSize` without a surface -/

/-- C10: when no surface is attached, `GetSize` returns `(0,0)` (and caches
`(0,0)`) for every viewport rectangle and every previously cached size. -/
theorem getSize_without_surface (vp : vtkViewport) (h : vp.VTKWindow = none) :
    vp.GetSize.2 = ⟨0, 0⟩ ∧ vp.GetSize.1.Size = ⟨0, 0⟩ := by
  simp [vtkViewport.GetSize, h]

/-- C10 at a viewport without surface whose rectangle is `(1/4,1/4,3/4,3/4)`
and whose cached size is `(640, 480)`. -/
theorem getSize_without_surface_witness :
    (vtkViewport.GetSize
      { vtkViewport.new with Viewport := ⟨1 / 4, 1 / 4, 3 / 4, 3 / 4⟩, Size := ⟨640, 480⟩ }).2
      = ⟨0, 0⟩ :=
  (getSize_without_surface
    { vtkViewport.new with Viewport := ⟨1 / 4, 1 / 4, 3 / 4, 3 / 4⟩, Size := ⟨640, 480⟩ } rfl).1

/-! ### `IsInViewport` against the pixel extent of `GetOrigin` / `GetSize` -/

/-- On a non-negative argument the cast `(int)x` is the floor. -/
theorem toInt_of_nonneg {x : ℚ} (h : 0 ≤ x) : toInt x = ⌊x⌋ := by
  simp [toInt, h]

/-- The cast `(int)(a + 0.5)` of a non-negative `a` lies within half a pixel of
`a`: it is at most `a + 1/2` and more than `a - 1/2`. -/
theorem toInt_add_half_bounds {a : ℚ} (h : 0 ≤ a) :
    ((toInt (a + 1 / 2) : Int) : ℚ) ≤ a + 1 / 2 ∧ a - 1 / 2 < ((toInt (a + 1 / 2) : Int) : ℚ) := by
  rw [toInt_of_nonneg (by linarith)]
  have h1 := Int.floor_le (a + 1 / 2)
  have h2 := Int.lt_floor_add_one (a + 1 / 2)
  constructor
  · exact h1
  · linarith

/-- With a surface attached `IsInViewport` answers 0 exactly outside the
closed rectangle scaled to the surface size. -/
theorem isInViewport_eq_zero_iff (vp : vtkViewport) (win : vtkWindow)
    (h : vp.VTKWindow = some win) (x y : Int) :
    vp.IsInViewport x y = 0 ↔
      ¬ (vp.Viewport.c0 * (win.Size.c0 : ℚ) ≤ x ∧ (x : ℚ) ≤ vp.Viewport.c2 * (win.Size.c0 : ℚ) ∧
        vp.Viewport.c1 * (win.Size.c1 : ℚ) ≤ y ∧ (y : ℚ) ≤ vp.Viewport.c3 * (win.Size.c1 : ℚ)) := by
  rw [← isInViewport_eq_one_iff vp win h]
  rcases isInViewport_zero_or_one vp x y with h0 | h1
  · simp [h0]
  · simp [h1]

/-- C9 (as stated, refuted).  On a 10x10 surface the full rectangle
`(0,0,1,1)` has origin `(0,0)` and size `(10,10)`, yet `IsInViewport` is true at
`(10, 0)`, one pixel past the right edge of the pixel extent; and the rectangle
`(3/25, 0, 1, 1)` has origin `(1,0)` and size `(9,10)`, yet `IsInViewport` is
false at its lower-left corner pixel `(1, 0)`. -/
theorem isInViewport_corner_mismatch :
    (vtkViewport.GetOrigin
      { vtkViewport.new with VTKWindow := some ⟨⟨10, 10⟩, ⟨0, 0, 1, 1⟩⟩ }).2 = ⟨0, 0⟩ ∧
    (vtkViewport.GetSize
      { vtkViewport.new with VTKWindow := some ⟨⟨10, 10⟩, ⟨0, 0, 1, 1⟩⟩ }).2 = ⟨10, 10⟩ ∧
    vtkViewport.IsInViewport
      { vtkViewport.new with VTKWindow := some ⟨⟨10, 10⟩, ⟨0, 0, 1, 1⟩⟩ } (0 + 10) 0 = 1 ∧
    (vtkViewport.GetOrigin
      { vtkViewport.new with
        VTKWindow := some ⟨⟨10, 10⟩, ⟨0, 0, 1, 1⟩⟩
        Viewport := ⟨3 / 25, 0, 1, 1⟩ }).2 = ⟨1, 0⟩ ∧
    (vtkViewport.GetSize
      { vtkViewport.new with
        VTKWindow := some ⟨⟨10, 10⟩, ⟨0, 0, 1, 1⟩⟩
        Viewport := ⟨3 / 25, 0, 1, 1⟩ }).2 = ⟨9, 10⟩ ∧
    vtkViewport.IsInViewport
      { vtkViewport.new with
        VTKWindow := some ⟨⟨10, 10⟩, ⟨0, 0, 1, 1⟩⟩
        Viewport := ⟨3 / 25, 0, 1, 1⟩ } 1 0 = 0 := by
  have e1 : toInt ((1 : ℚ) / 2) = 0 := by
    rw [toInt_of_nonneg (by norm_num)]; norm_num [Int.floor_eq_iff]
  have e2 : toInt ((10 : ℚ) + 1 / 2) = 10 := by
    rw [toInt_of_nonneg (by norm_num)]; norm_num [Int.floor_eq_iff]
  have e3 : toInt ((3 : ℚ) / 25 * 10 + 1 / 2) = 1 := by
    rw [toInt_of_nonneg (by norm_num)]; norm_num [Int.floor_eq_iff]
  simp only [one_div] at e1 e2 e3
  refine ⟨?_, ?_, ?_, ?_, ?_, ?_⟩
  · simp [vtkViewport.GetOrigin, vtkViewport.new, e1]
  · simp [vtkViewport.GetSize, vtkViewport.NormalizedDisplayToDisplay, vtkViewport.new, e1, e2]
  · norm_num [vtkViewport.IsInViewport, vtkViewport.new]
  · simp [vtkViewport.GetOrigin, vtkViewport.new, e1, e3]
  · simp [vtkViewport.GetSize, vtkViewport.NormalizedDisplayToDisplay, vtkViewport.new, e1, e2, e3]
  · norm_num [vtkViewport.IsInViewport, vtkViewport.new]

/-- C9 (amended).  With a surface of size `W,H > 0`, a rectangle
`0 <= x0 < x1`, `0 <= y0 < y1` (in particular one inside the unit square)
whose pixel extent
`GetSize() = (sx,sy)` is positive, `(ox,oy) = GetOrigin()`, and lower edges
that are not rounded down (`x0*W <= ox`, `y0*H <= oy`): `IsInViewport` is true
at the four corner pixels `(ox,oy)`, `(ox+sx-1,oy)`, `(ox,oy+sy-1)`,
`(ox+sx-1,oy+sy-1)`; it is false at `(ox-1,y)` and `(x,oy-1)` for all `x`, `y`;
and for `y` (resp. `x`) inside the pixel extent it is false at `(ox+sx,y)`
exactly when `x1*W < ox+sx` (resp. at `(x,oy+sy)` exactly when
`y1*H < oy+sy`), the upper edges being inclusive. -/
theorem isInViewport_pixel_extent (vp : vtkViewport) (win : vtkWindow)
    (ox oy sx sy : Int) (hwin : vp.VTKWindow = some win)
    (hW : 0 < win.Size.c0) (hH : 0 < win.Size.c1)
    (hx0 : 0 ≤ vp.Viewport.c0) (hx : vp.Viewport.c0 < vp.Viewport.c2)
    (hy0 : 0 ≤ vp.Viewport.c1) (hy : vp.Viewport.c1 < vp.Viewport.c3)
    (hsize : vp.GetSize.2 = ⟨sx, sy⟩) (hsx : 0 < sx) (hsy : 0 < sy)
    (horigin : vp.GetOrigin.2 = ⟨ox, oy⟩)
    (hox : vp.Viewport.c0 * (win.Size.c0 : ℚ) ≤ ox)
    (hoy : vp.Viewport.c1 * (win.Size.c1 : ℚ) ≤ oy) :
    vp.IsInViewport ox oy = 1 ∧ vp.IsInViewport (ox + sx - 1) oy = 1 ∧
    vp.IsInViewport ox (oy + sy - 1) = 1 ∧ vp.IsInViewport (ox + sx - 1) (oy + sy - 1) = 1 ∧
    (∀ x y : Int, vp.IsInViewport (ox - 1) y = 0 ∧ vp.IsInViewport x (oy - 1) = 0) ∧
    (∀ y : Int, oy ≤ y → y < oy + sy →
      (vp.IsInViewport (ox + sx) y = 0 ↔ vp.Viewport.c2 * (win.Size.c0 : ℚ) < ((ox + sx : Int) : ℚ))) ∧
    (∀ x : Int, ox ≤ x → x < ox + sx →
      (vp.IsInViewport x (oy + sy) = 0 ↔ vp.Viewport.c3 * (win.Size.c1 : ℚ) < ((oy + sy : Int) : ℚ))) := by
  have hWq : (0 : ℚ) < win.Size.c0 := by exact_mod_cast hW
  have hHq : (0 : ℚ) < win.Size.c1 := by exact_mod_cast hH
  have ha : 0 ≤ vp.Viewport.c0 * (win.Size.c0 : ℚ) := mul_nonneg hx0 hWq.le
  have hb : 0 ≤ vp.Viewport.c2 * (win.Size.c0 : ℚ) := mul_nonneg (by linarith) hWq.le
  have hc : 0 ≤ vp.Viewport.c1 * (win.Size.c1 : ℚ) := mul_nonneg hy0 hHq.le
  have hd : 0 ≤ vp.Viewport.c3 * (win.Size.c1 : ℚ) := mul_nonneg (by linarith) hHq.le
  obtain ⟨a1, a2⟩ := toInt_add_half_bounds ha
  obtain ⟨b1, b2⟩ := toInt_add_half_bounds hb
  obtain ⟨c1, c2⟩ := toInt_add_half_bounds hc
  obtain ⟨d1, d2⟩ := toInt_add_half_bounds hd
  simp only [vtkViewport.GetSize, vtkViewport.NormalizedDisplayToDisplay, hwin,
    Int2.mk.injEq] at hsize
  simp only [vtkViewport.GetOrigin, hwin, Int2.mk.injEq] at horigin
  obtain ⟨hs0, hs1⟩ := hsize
  obtain ⟨ho0, ho1⟩ := horigin
  rw [ho0] at a1 a2 hs0
  rw [ho1] at c1 c2 hs1
  have hux : toInt (vp.Viewport.c2 * (win.Size.c0 : ℚ) + 1 / 2) = ox + sx := by omega
  have huy : toInt (vp.Viewport.c3 * (win.Size.c1 : ℚ) + 1 / 2) = oy + sy := by omega
  rw [hux] at b1 b2
  rw [huy] at d1 d2
  have hsxq : (1 : ℚ) ≤ sx := by exact_mod_cast hsx
  have hsyq : (1 : ℚ) ≤ sy := by exact_mod_cast hsy
  push_cast at b1 b2 d1 d2
  refine ⟨?_, ?_, ?_, ?_, ?_, ?_, ?_⟩
  · rw [isInViewport_eq_one_iff vp win hwin]
    refine ⟨hox, ?_, hoy, ?_⟩ <;> linarith
  · rw [isInViewport_eq_one_iff vp win hwin]
    push_cast
    refine ⟨?_, ?_, hoy, ?_⟩ <;> linarith
  · rw [isInViewport_eq_one_iff vp win hwin]
    push_cast
    refine ⟨hox, ?_, ?_, ?_⟩ <;> linarith
  · rw [isInViewport_eq_one_iff vp win hwin]
    push_cast
    refine ⟨?_, ?_, ?_, ?_⟩ <;> linarith
  · intro x y
    constructor
    · rw [isInViewport_eq_zero_iff vp win hwin]
      push_cast
      rintro ⟨h1, -, -, -⟩
      linarith
    · rw [isInViewport_eq_zero_iff vp win hwin]
      push_cast
      rintro ⟨-, -, h1, -⟩
      linarith
  · intro y hy1 hy2
    have hyq1 : (oy : ℚ) ≤ y := by exact_mod_cast hy1
    have hyq2 : (y : ℚ) ≤ oy + sy - 1 := by
      have : y ≤ oy + sy - 1 := by omega
      exact_mod_cast this
    rw [isInViewport_eq_zero_iff vp win hwin]
    push_cast
    constructor
    · intro hn
      by_contra hlt
      exact hn ⟨by linarith, by linarith, by linarith, by linarith⟩
    · rintro hlt ⟨-, h2, -, -⟩
      linarith
  · intro x hx1 hx2
    have hxq1 : (ox : ℚ) ≤ x := by exact_mod_cast hx1
    have hxq2 : (x : ℚ) ≤ ox + sx - 1 := by
      have : x ≤ ox + sx - 1 := by omega
      exact_mod_cast this
    rw [isInViewport_eq_zero_iff vp win hwin]
    push_cast
    constructor
    · intro hn
      by_contra hlt
      exact hn ⟨by linarith, by linarith, by linarith, by linarith⟩
    · rintro hlt ⟨-, -, -, h2⟩
      linarith

/-- The amended C9 on a 10x10 surface with the rectangle `(1/5,1/5,4/5,4/5)`:
origin `(2,2)`, size `(6,6)`; the corner pixels `(2,2)` and `(7,7)` are inside
and `(1,5)` is outside. -/
theorem isInViewport_pixel_extent_witness :
    vtkViewport.IsInViewport
      { vtkViewport.new with
        VTKWindow := some ⟨⟨10, 10⟩, ⟨0, 0, 1, 1⟩⟩
        Viewport := ⟨1 / 5, 1 / 5, 4 / 5, 4 / 5⟩ } 2 2 = 1 ∧
    vtkViewport.IsInViewport
      { vtkViewport.new with
        VTKWindow := some ⟨⟨10, 10⟩, ⟨0, 0, 1, 1⟩⟩
        Viewport := ⟨1 / 5, 1 / 5, 4 / 5, 4 / 5⟩ } (2 + 6 - 1) (2 + 6 - 1) = 1 ∧
    vtkViewport.IsInViewport
      { vtkViewport.new with
        VTKWindow := some ⟨⟨10, 10⟩, ⟨0, 0, 1, 1⟩⟩
        Viewport := ⟨1 / 5, 1 / 5, 4 / 5, 4 / 5⟩ } (2 - 1) 5 = 0 :=
  have e1 : toInt ((5 : ℚ)⁻¹ * 10 + 2⁻¹) = 2 := by
    rw [toInt_of_nonneg (by norm_num)]; norm_num [Int.floor_eq_iff]
  have e2 : toInt ((4 : ℚ) / 5 * 10 + 2⁻¹) = 8 := by
    rw [toInt_of_nonneg (by norm_num)]; norm_num [Int.floor_eq_iff]
  have h := isInViewport_pixel_extent
    { vtkViewport.new with
      VTKWindow := some ⟨⟨10, 10⟩, ⟨0, 0, 1, 1⟩⟩
      Viewport := ⟨1 / 5, 1 / 5, 4 / 5, 4 / 5⟩ }
    ⟨⟨10, 10⟩, ⟨0, 0, 1, 1⟩⟩ 2 2 6 6 rfl (by decide) (by decide)
    (by norm_num) (by norm_num) (by norm_num) (by norm_num)
    (by simp [vtkViewport.GetSize, vtkViewport.NormalizedDisplayToDisplay, e1, e2])
    (by decide) (by decide)
    (by simp [vtkViewport.GetOrigin, e1])
    (by norm_num) (by norm_num)
  ⟨h.1, h.2.2.2.1, (h.2.2.2.2.1 0 5).1⟩

/-! ### `GetSize`, `GetOrigin` and the aspect -/

/-- Calling `GetSize` again on the object it returns gives the same size. -/
theorem getSize_getSize (vp : vtkViewport) : vp.GetSize.1.GetSize.2 = vp.GetSize.2 := by
  cases hwin : vp.VTKWindow with
  | none => simp [vtkViewport.GetSize, hwin]
  | some win => simp [vtkViewport.GetSize, vtkViewport.NormalizedDisplayToDisplay, hwin]

/-- `GetSize` keeps the surface. -/
theorem getSize_window (vp : vtkViewport) : vp.GetSize.1.VTKWindow = vp.VTKWindow := by
  cases hwin : vp.VTKWindow with
  | none => simp [vtkViewport.GetSize, hwin]
  | some win => simp [vtkViewport.GetSize, hwin]

/-- C12: with a surface attached and a pixel size `GetSize() = (sx,sy)` greater
than 1 on both axes, `NormalizedViewportToViewport` multiplies by
`(sx - 1, sy - 1)`, `ViewportToNormalizedViewport` divides by `(sx - 1, sy - 1)`
(the viewport pixel size less one, not the surface size), and the second
after the first returns `(u,v)` unchanged. -/
theorem normalizedViewport_viewport_roundtrip (vp : vtkViewport) (win : vtkWindow)
    (sx sy : Int) (hwin : vp.VTKWindow = some win) (hsize : vp.GetSize.2 = ⟨sx, sy⟩)
    (hsx : 1 < sx) (hsy : 1 < sy) (u v : ℚ) :
    (vp.NormalizedViewportToViewport u v).2 = ⟨u * ((sx : ℚ) - 1), v * ((sy : ℚ) - 1)⟩ ∧
    (vp.ViewportToNormalizedViewport u v).2 = ⟨u / ((sx : ℚ) - 1), v / ((sy : ℚ) - 1)⟩ ∧
    ((vp.NormalizedViewportToViewport u v).1.ViewportToNormalizedViewport
      (vp.NormalizedViewportToViewport u v).2.c0
      (vp.NormalizedViewportToViewport u v).2.c1).2 = ⟨u, v⟩ := by
  have hx : ((sx : ℚ) - 1) ≠ 0 := by
    have : (1 : ℚ) < sx := by exact_mod_cast hsx
    linarith
  have hy : ((sy : ℚ) - 1) ≠ 0 := by
    have : (1 : ℚ) < sy := by exact_mod_cast hsy
    linarith
  have hw2 : vp.GetSize.1.VTKWindow = some win := by rw [getSize_window, hwin]
  have hs2 : vp.GetSize.1.GetSize.2 = ⟨sx, sy⟩ := by rw [getSize_getSize, hsize]
  have e1 : vp.NormalizedViewportToViewport u v =
      (vp.GetSize.1, ⟨u * ((sx : ℚ) - 1), v * ((sy : ℚ) - 1)⟩) := by
    simp only [vtkViewport.NormalizedViewportToViewport, hwin, hsize]
  have e2 : vp.ViewportToNormalizedViewport u v =
      (vp.GetSize.1, ⟨u / ((sx : ℚ) - 1), v / ((sy : ℚ) - 1)⟩) := by
    simp only [vtkViewport.ViewportToNormalizedViewport, hwin, hsize]
  refine ⟨by rw [e1], by rw [e2], ?_⟩
  rw [e1]
  simp only [vtkViewport.ViewportToNormalizedViewport, hw2, hs2, Double2.mk.injEq]
  constructor
  · field_simp
  · field_simp

/-- C12 on a 10x10 surface with the full rectangle (pixel size `(10,10)`) and
the point `(1/3, 1/4)`. -/
theorem normalizedViewport_viewport_roundtrip_witness :
    (vtkViewport.ViewportToNormalizedViewport
      (vtkViewport.NormalizedViewportToViewport
        { vtkViewport.new with VTKWindow := some ⟨⟨10, 10⟩, ⟨0, 0, 1, 1⟩⟩ } (1 / 3) (1 / 4)).1
      (vtkViewport.NormalizedViewportToViewport
        { vtkViewport.new with VTKWindow := some ⟨⟨10, 10⟩, ⟨0, 0, 1, 1⟩⟩ } (1 / 3) (1 / 4)).2.c0
      (vtkViewport.NormalizedViewportToViewport
        { vtkViewport.new with VTKWindow := some ⟨⟨10, 10⟩, ⟨0, 0, 1, 1⟩⟩ } (1 / 3) (1 / 4)).2.c1).2
      = ⟨1 / 3, 1 / 4⟩ :=
  (normalizedViewport_viewport_roundtrip
    { vtkViewport.new with VTKWindow := some ⟨⟨10, 10⟩, ⟨0, 0, 1, 1⟩⟩ }
    ⟨⟨10, 10⟩, ⟨0, 0, 1, 1⟩⟩ 10 10 rfl
    (by
      have e1 : toInt ((2 : ℚ)⁻¹) = 0 := by
        rw [toInt_of_nonneg (by norm_num)]; norm_num [Int.floor_eq_iff]
      have e2 : toInt ((10 : ℚ) + 2⁻¹) = 10 := by
        rw [toInt_of_nonneg (by norm_num)]; norm_num [Int.floor_eq_iff]
      simp [vtkViewport.GetSize, vtkViewport.NormalizedDisplayToDisplay, vtkViewport.new, e1, e2])
    (by decide) (by decide) (1 / 3) (1 / 4)).2.2

/-! ### The two-argument conversions -/

/-- C13: the local-display flip is an involution.  For every `(u,v)` and every
surface state, `LocalDisplayToDisplay` twice, `DisplayToLocalDisplay` twice,
and one after the other return `(u,v)`; with a surface of height `H` a single
application of either gives `(u, H - v - 1)`. -/
theorem localDisplay_flip_involution (vp : vtkViewport) (u v : ℚ) :
    vp.LocalDisplayToDisplay (vp.LocalDisplayToDisplay u v).c0
      (vp.LocalDisplayToDisplay u v).c1 = ⟨u, v⟩ ∧
    vp.DisplayToLocalDisplay (vp.DisplayToLocalDisplay u v).c0
      (vp.DisplayToLocalDisplay u v).c1 = ⟨u, v⟩ ∧
    vp.DisplayToLocalDisplay (vp.LocalDisplayToDisplay u v).c0
      (vp.LocalDisplayToDisplay u v).c1 = ⟨u, v⟩ ∧
    vp.LocalDisplayToDisplay (vp.DisplayToLocalDisplay u v).c0
      (vp.DisplayToLocalDisplay u v).c1 = ⟨u, v⟩ ∧
    (∀ win : vtkWindow,
      vtkViewport.LocalDisplayToDisplay { vp with VTKWindow := some win } u v
        = ⟨u, (win.Size.c1 : ℚ) - v - 1⟩ ∧
      vtkViewport.DisplayToLocalDisplay { vp with VTKWindow := some win } u v
        = ⟨u, (win.Size.c1 : ℚ) - v - 1⟩) := by
  refine ⟨?_, ?_, ?_, ?_, fun win => ⟨rfl, rfl⟩⟩ <;>
  · cases hwin : vp.VTKWindow with
    | none => simp [vtkViewport.LocalDisplayToDisplay, vtkViewport.DisplayToLocalDisplay, hwin]
    | some win =>
      simp only [vtkViewport.LocalDisplayToDisplay, vtkViewport.DisplayToLocalDisplay, hwin,
        Double2.mk.injEq, true_and]
      ring

/-- C14: with a surface of non-zero width `W` and height `H`,
`ViewportToNormalizedDisplay` and `NormalizedDisplayToViewport` are inverse to
each other, in either order, for every `(u,v)` and every viewport rectangle;
`ViewportToNormalizedDisplay` maps `(u,v)` to
`((u + x0*W + 1/2)/W, (v + y0*H + 1/2)/H)`, so when the pixel value of the
viewport origin is `(0,0)` (rectangle corner `x0 = y0 = 0`) viewport pixel
`(i,j)` maps to `((i + 1/2)/W, (j + 1/2)/H)`. -/
theorem viewport_normalizedDisplay_inverse (vp : vtkViewport) (win : vtkWindow)
    (hwin : vp.VTKWindow = some win) (hW : win.Size.c0 ≠ 0) (hH : win.Size.c1 ≠ 0)
    (u v : ℚ) :
    vp.ViewportToNormalizedDisplay (vp.NormalizedDisplayToViewport u v).c0
      (vp.NormalizedDisplayToViewport u v).c1 = ⟨u, v⟩ ∧
    vp.NormalizedDisplayToViewport (vp.ViewportToNormalizedDisplay u v).c0
      (vp.ViewportToNormalizedDisplay u v).c1 = ⟨u, v⟩ ∧
    vp.ViewportToNormalizedDisplay u v =
      ⟨(u + vp.Viewport.c0 * (win.Size.c0 : ℚ) + 1 / 2) / (win.Size.c0 : ℚ),
       (v + vp.Viewport.c1 * (win.Size.c1 : ℚ) + 1 / 2) / (win.Size.c1 : ℚ)⟩ ∧
    (vp.Viewport.c0 = 0 → vp.Viewport.c1 = 0 → ∀ i j : Int,
      vp.ViewportToNormalizedDisplay i j =
        ⟨((i : ℚ) + 1 / 2) / (win.Size.c0 : ℚ), ((j : ℚ) + 1 / 2) / (win.Size.c1 : ℚ)⟩) := by
  have hWq : (win.Size.c0 : ℚ) ≠ 0 := by exact_mod_cast hW
  have hHq : (win.Size.c1 : ℚ) ≠ 0 := by exact_mod_cast hH
  refine ⟨?_, ?_, ?_, ?_⟩
  · simp only [vtkViewport.ViewportToNormalizedDisplay, vtkViewport.NormalizedDisplayToViewport,
      vtkViewport.NormalizedDisplayToDisplay, vtkViewport.DisplayToNormalizedDisplay, hwin,
      Double2.mk.injEq]
    constructor
    · field_simp
      ring
    · field_simp
      ring
  · simp only [vtkViewport.ViewportToNormalizedDisplay, vtkViewport.NormalizedDisplayToViewport,
      vtkViewport.NormalizedDisplayToDisplay, vtkViewport.DisplayToNormalizedDisplay, hwin,
      Double2.mk.injEq]
    constructor
    · field_simp
      ring
    · field_simp
      ring
  · simp only [vtkViewport.ViewportToNormalizedDisplay,
      vtkViewport.NormalizedDisplayToDisplay, vtkViewport.DisplayToNormalizedDisplay, hwin]
  · intro h0 h1 i j
    simp only [vtkViewport.ViewportToNormalizedDisplay,
      vtkViewport.NormalizedDisplayToDisplay, vtkViewport.DisplayToNormalizedDisplay, hwin,
      h0, h1, zero_mul, add_zero]

/-- C14 on a 640x480 surface with the rectangle `(0, 0, 1/2, 1/2)`: viewport
pixel `(3, 7)` maps to `((3 + 1/2)/640, (7 + 1/2)/480)`. -/
theorem viewport_normalizedDisplay_inverse_witness :
    vtkViewport.ViewportToNormalizedDisplay
      { vtkViewport.new with
        VTKWindow := some ⟨⟨640, 480⟩, ⟨0, 0, 1, 1⟩⟩
        Viewport := ⟨0, 0, 1 / 2, 1 / 2⟩ } ((3 : Int) : ℚ) ((7 : Int) : ℚ)
      = ⟨(((3 : Int) : ℚ) + 1 / 2) / ((640 : Int) : ℚ),
         (((7 : Int) : ℚ) + 1 / 2) / ((480 : Int) : ℚ)⟩ :=
  (viewport_normalizedDisplay_inverse
    { vtkViewport.new with
      VTKWindow := some ⟨⟨640, 480⟩, ⟨0, 0, 1, 1⟩⟩
      Viewport := ⟨0, 0, 1 / 2, 1 / 2⟩ }
    ⟨⟨640, 480⟩, ⟨0, 0, 1, 1⟩⟩ rfl (by decide) (by decide) 0 0).2.2.2 rfl rfl 3 7

/-! ### `GetTiledSize` and `ComputeAspect` -/

/-- The cast `(int)x` is monotone. -/
theorem toInt_mono {a b : ℚ} (h : a ≤ b) : toInt a ≤ toInt b := by
  unfold toInt
  split_ifs with ha hb hb
  · exact Int.floor_mono h
  · exact absurd (le_trans ha h) hb
  · have h1 : ⌈a⌉ ≤ 0 := Int.ceil_le.mpr (by push_cast; linarith)
    have h2 : 0 ≤ ⌊b⌋ := Int.floor_nonneg.mpr hb
    omega
  · exact Int.ceil_mono h

/-- With a surface attached `GetTiledSize` has a result and both of its
components are non-negative. -/
theorem getTiledSize_nonneg (vp : vtkViewport) (win : vtkWindow)
    (hwin : vp.VTKWindow = some win) :
    ∃ r : Int2, vp.GetTiledSize = some r ∧ 0 ≤ r.c0 ∧ 0 ≤ r.c1 := by
  have clamp : ∀ e : Int, 0 ≤ (if e < 0 then 0 else e) := by
    intro e
    split_ifs <;> omega
  simp only [vtkViewport.GetTiledSize, hwin]
  exact ⟨_, rfl, clamp _, clamp _⟩

/-- C15: with a surface of size `W,H >= 0` whose tile viewport is the full
rectangle `(0,0,1,1)` and a viewport rectangle with `0 <= x0 <= x1 <= 1`,
`0 <= y0 <= y1 <= 1`, `GetTiledSize` returns the width and height that `GetSize`
returns; and for every viewport with a surface, whatever the tile viewport and
the rectangle, `GetTiledSize` returns non-negative components. -/
theorem getTiledSize_full_tile (vp : vtkViewport) (win : vtkWindow)
    (hwin : vp.VTKWindow = some win) (htile : win.TileViewport = ⟨0, 0, 1, 1⟩)
    (hW : 0 ≤ win.Size.c0) (hH : 0 ≤ win.Size.c1)
    (hx0 : 0 ≤ vp.Viewport.c0) (hx : vp.Viewport.c0 ≤ vp.Viewport.c2) (hx1 : vp.Viewport.c2 ≤ 1)
    (hy0 : 0 ≤ vp.Viewport.c1) (hy : vp.Viewport.c1 ≤ vp.Viewport.c3) (hy1 : vp.Viewport.c3 ≤ 1) :
    vp.GetTiledSize = some vp.GetSize.2 ∧
    (∀ (vp2 : vtkViewport) (win2 : vtkWindow), vp2.VTKWindow = some win2 →
      ∃ r : Int2, vp2.GetTiledSize = some r ∧ 0 ≤ r.c0 ∧ 0 ≤ r.c1) := by
  refine ⟨?_, getTiledSize_nonneg⟩
  have hWq : (0 : ℚ) ≤ win.Size.c0 := by exact_mod_cast hW
  have hHq : (0 : ℚ) ≤ win.Size.c1 := by exact_mod_cast hH
  have a1 : ¬ vp.Viewport.c0 < 0 := not_lt.mpr hx0
  have a2 : ¬ vp.Viewport.c0 > 1 := not_lt.mpr (le_trans hx hx1)
  have a3 : ¬ vp.Viewport.c2 > 1 := not_lt.mpr hx1
  have a4 : ¬ vp.Viewport.c2 < 0 := not_lt.mpr (le_trans hx0 hx)
  have b1 : ¬ vp.Viewport.c1 < 0 := not_lt.mpr hy0
  have b2 : ¬ vp.Viewport.c1 > 1 := not_lt.mpr (le_trans hy hy1)
  have b3 : ¬ vp.Viewport.c3 > 1 := not_lt.mpr hy1
  have b4 : ¬ vp.Viewport.c3 < 0 := not_lt.mpr (le_trans hy0 hy)
  have mx : toInt (vp.Viewport.c0 * (win.Size.c0 : ℚ) + 1 / 2) ≤
      toInt (vp.Viewport.c2 * (win.Size.c0 : ℚ) + 1 / 2) :=
    toInt_mono (by nlinarith)
  have my : toInt (vp.Viewport.c1 * (win.Size.c1 : ℚ) + 1 / 2) ≤
      toInt (vp.Viewport.c3 * (win.Size.c1 : ℚ) + 1 / 2) :=
    toInt_mono (by nlinarith)
  have cx : ¬ toInt (vp.Viewport.c2 * (win.Size.c0 : ℚ) + 1 / 2) -
      toInt (vp.Viewport.c0 * (win.Size.c0 : ℚ) + 1 / 2) < 0 := by omega
  have cy : ¬ toInt (vp.Viewport.c3 * (win.Size.c1 : ℚ) + 1 / 2) -
      toInt (vp.Viewport.c1 * (win.Size.c1 : ℚ) + 1 / 2) < 0 := by omega
  simp only [vtkViewport.GetTiledSize, vtkViewport.GetSize,
    vtkViewport.NormalizedDisplayToDisplay, hwin, htile, if_neg a1, if_neg a2, if_neg a3,
    if_neg a4, if_neg b1, if_neg b2, if_neg b3, if_neg b4, if_neg cx, if_neg cy]

/-- C15 on a 10x10 surface with the full tile viewport and the rectangle
`(0, 0, 1/2, 1/2)`. -/
theorem getTiledSize_full_tile_witness :
    vtkViewport.GetTiledSize
      { vtkViewport.new with
        VTKWindow := some ⟨⟨10, 10⟩, ⟨0, 0, 1, 1⟩⟩
        Viewport := ⟨0, 0, 1 / 2, 1 / 2⟩ } =
    some (vtkViewport.GetSize
      { vtkViewport.new with
        VTKWindow := some ⟨⟨10, 10⟩, ⟨0, 0, 1, 1⟩⟩
        Viewport := ⟨0, 0, 1 / 2, 1 / 2⟩ }).2 :=
  (getTiledSize_full_tile
    { vtkViewport.new with
      VTKWindow := some ⟨⟨10, 10⟩, ⟨0, 0, 1, 1⟩⟩
      Viewport := ⟨0, 0, 1 / 2, 1 / 2⟩ }
    ⟨⟨10, 10⟩, ⟨0, 0, 1, 1⟩⟩ rfl rfl (by decide) (by decide)
    (by norm_num) (by norm_num) (by norm_num) (by norm_num) (by norm_num) (by norm_num)).1

/-- C16: with a surface attached and `GetSize() = (sx,sy)`, `sy` non-zero,
`ComputeAspect` sets the aspect to `(sx / sy * pixelAspect.x, pixelAspect.y)`
with the quotient taken in the rationals: the pixel width and height it uses
are those reported by `GetSize`.  With no surface attached it leaves the
aspect (and the whole object) unchanged. -/
theorem computeAspect_uses_getSize (vp : vtkViewport) (win : vtkWindow) (sx sy : Int)
    (hwin : vp.VTKWindow = some win) (hsize : vp.GetSize.2 = ⟨sx, sy⟩) (_hsy : sy ≠ 0) :
    vp.ComputeAspect.Aspect = ⟨(sx : ℚ) / (sy : ℚ) * vp.PixelAspect.c0, vp.PixelAspect.c1⟩ ∧
    vtkViewport.ComputeAspect { vp with VTKWindow := none } = { vp with VTKWindow := none } := by
  refine ⟨?_, rfl⟩
  simp only [vtkViewport.GetSize, vtkViewport.NormalizedDisplayToDisplay, hwin,
    Int2.mk.injEq] at hsize
  obtain ⟨h0, h1⟩ := hsize
  have e0 : toInt (vp.Viewport.c2 * (win.Size.c0 : ℚ) + 1 / 2) - 1 -
      toInt (vp.Viewport.c0 * (win.Size.c0 : ℚ) + 1 / 2) + 1 = sx := by omega
  have e1 : toInt (vp.Viewport.c3 * (win.Size.c1 : ℚ) + 1 / 2) - 1 -
      toInt (vp.Viewport.c1 * (win.Size.c1 : ℚ) + 1 / 2) + 1 = sy := by omega
  simp only [vtkViewport.ComputeAspect, vtkViewport.SetAspect, hwin, e0, e1, one_mul]

/-- C16 on a 10x10 surface with the rectangle `(0, 0, 1, 1/2)`: the pixel size
is `(10, 5)`. -/
theorem computeAspect_uses_getSize_witness :
    (vtkViewport.ComputeAspect
      { vtkViewport.new with
        VTKWindow := some ⟨⟨10, 10⟩, ⟨0, 0, 1, 1⟩⟩
        Viewport := ⟨0, 0, 1, 1 / 2⟩ }).Aspect = ⟨((10 : Int) : ℚ) / ((5 : Int) : ℚ) * 1, 1⟩ :=
  (computeAspect_uses_getSize
    { vtkViewport.new with
      VTKWindow := some ⟨⟨10, 10⟩, ⟨0, 0, 1, 1⟩⟩
      Viewport := ⟨0, 0, 1, 1 / 2⟩ }
    ⟨⟨10, 10⟩, ⟨0, 0, 1, 1⟩⟩ 10 5 rfl
    (by
      have e1 : toInt ((2 : ℚ)⁻¹) = 0 := by
        rw [toInt_of_nonneg (by norm_num)]; norm_num [Int.floor_eq_iff]
      have e2 : toInt ((10 : ℚ) + 2⁻¹) = 10 := by
        rw [toInt_of_nonneg (by norm_num)]; norm_num [Int.floor_eq_iff]
      have e3 : toInt ((2 : ℚ)⁻¹ * 10 + 2⁻¹) = 5 := by
        rw [toInt_of_nonneg (by norm_num)]; norm_num [Int.floor_eq_iff]
      simp [vtkViewport.GetSize, vtkViewport.NormalizedDisplayToDisplay, vtkViewport.new,
        e1, e2, e3])
    (by decide)).1

/-! ### The registers written by the point conversions -/

/-- C20 (as stated, refuted): on a viewport without surface whose display
point is `(0,0,5)` and whose view point is `(0,0,0)`, `DisplayToView` writes
nothing, so afterwards `viewPoint.z = 0` differs from `displayPoint.z = 5`. -/
theorem displayToView_without_surface_keeps_z :
    (vtkViewport.DisplayToView
      { vtkViewport.new with DisplayPoint := ⟨0, 0, 5⟩ }).ViewPoint.c2 = 0 ∧
    (vtkViewport.DisplayToView
      { vtkViewport.new with DisplayPoint := ⟨0, 0, 5⟩ }).DisplayPoint.c2 = 5 ∧
    (vtkViewport.DisplayToView
      { vtkViewport.new with DisplayPoint := ⟨0, 0, 5⟩ }).ViewPoint.c2 ≠
    (vtkViewport.DisplayToView
      { vtkViewport.new with DisplayPoint := ⟨0, 0, 5⟩ }).DisplayPoint.c2 := by
  refine ⟨rfl, rfl, ?_⟩
  norm_num [vtkViewport.DisplayToView, vtkViewport.new]

/-- C20 (amended): `DisplayToView` writes only `viewPoint` and, with a surface
attached, sets `viewPoint.z = displayPoint.z`; `ViewToDisplay` writes only
`displayPoint` and, with a surface attached, sets `displayPoint.z = viewPoint.z`;
without a surface both write nothing.  `ViewToWorld` writes only `worldPoint`,
setting it to `(vx,vy,vz,1)`; `WorldToView` writes only `viewPoint`, setting it
to the first three world components; so `WorldToView` after `ViewToWorld`
restores `viewPoint`. -/
theorem point_conversions_frame (vp : vtkViewport) :
    (∃ q : Double3, vp.DisplayToView = { vp with ViewPoint := q }) ∧
    (∀ win : vtkWindow,
      (vtkViewport.DisplayToView { vp with VTKWindow := some win }).ViewPoint.c2
        = vp.DisplayPoint.c2) ∧
    (∃ q : Double3, vp.ViewToDisplay = { vp with DisplayPoint := q }) ∧
    (∀ win : vtkWindow,
      (vtkViewport.ViewToDisplay { vp with VTKWindow := some win }).DisplayPoint.c2
        = vp.ViewPoint.c2) ∧
    vtkViewport.DisplayToView { vp with VTKWindow := none } = { vp with VTKWindow := none } ∧
    vtkViewport.ViewToDisplay { vp with VTKWindow := none } = { vp with VTKWindow := none } ∧
    vp.ViewToWorld =
      { vp with WorldPoint := ⟨vp.ViewPoint.c0, vp.ViewPoint.c1, vp.ViewPoint.c2, 1⟩ } ∧
    vp.WorldToView =
      { vp with ViewPoint := ⟨vp.WorldPoint.c0, vp.WorldPoint.c1, vp.WorldPoint.c2⟩ } ∧
    vp.ViewToWorld.WorldToView.ViewPoint = vp.ViewPoint := by
  refine ⟨?_, fun win => rfl, ?_, fun win => rfl, rfl, rfl, rfl, rfl, rfl⟩
  · refine ⟨vp.DisplayToView.ViewPoint, ?_⟩
    unfold vtkViewport.DisplayToView
    split <;> rfl
  · refine ⟨vp.ViewToDisplay.DisplayPoint, ?_⟩
    unfold vtkViewport.ViewToDisplay
    split <;> rfl

/-! ### The prop registry -/

/-- `HasProp` answers 1 exactly for the props of the collection. -/
theorem hasProp_eq_one_iff (vp : vtkViewport) (a : Nat) :
    vp.HasProp (some a) = 1 ↔ a ∈ vp.Props := by
  simp only [vtkViewport.HasProp, vtkCollection.IsItemPresent]
  by_cases h : a ∈ vp.Props
  · have hne : ((vp.Props.indexOf a : Int) + 1) ≠ 0 := by omega
    simp [h, hne]
  · simp [h]

/-- `HasProp` answers 0 exactly for a null prop or a prop outside the
collection. -/
theorem hasProp_eq_zero_iff (vp : vtkViewport) (p : Option Nat) :
    vp.HasProp p = 0 ↔ ∀ a, p = some a → a ∉ vp.Props := by
  cases p with
  | none => simp [vtkViewport.HasProp]
  | some a =>
    simp only [vtkViewport.HasProp, vtkCollection.IsItemPresent]
    by_cases h : a ∈ vp.Props
    · have hne : ((vp.Props.indexOf a : Int) + 1) ≠ 0 := by omega
      simp [h, hne]
    · simp [h]

/-- The calls made by `RemoveAllProps`: no `AddConsumer`, and one
`RemoveConsumer` per occurrence of a prop in the collection. -/
theorem removeAllProps_calls (vp : vtkViewport) (p : Nat) :
    vtkViewport.addConsumerCalls vp.RemoveAllProps.2 p = 0 ∧
    vtkViewport.removeConsumerCalls vp.RemoveAllProps.2 p = vp.Props.count p := by
  simp only [vtkViewport.RemoveAllProps, vtkViewport.addConsumerCalls,
    vtkViewport.removeConsumerCalls]
  generalize vp.VTKWindow = w
  induction vp.Props with
  | nil => simp
  | cons a l ih =>
    obtain ⟨ih1, ih2⟩ := ih
    simp only [List.foldr_cons]
    constructor
    · rw [List.count_cons_of_ne (by simp), List.count_cons_of_ne (by simp)]
      exact ih1
    · rw [List.count_cons_of_ne (by simp)]
      by_cases hap : a = p
      · subst hap
        rw [List.count_cons_self, List.count_cons_self, ih2]
      · have hpa : p ≠ a := fun h => hap h.symm
        rw [List.count_cons_of_ne (by simpa using hpa), List.count_cons_of_ne hpa, ih2]

/-- Every one of the four operations keeps the registry invariant: no prop
occurs twice, and each prop has received one more `AddConsumer` than
`RemoveConsumer` call exactly when it is in the collection. -/
theorem callOp_invariant (s : vtkViewport × List PropCall) (op : vtkViewport.PropOp)
    (hnd : s.1.Props.Nodup)
    (hc : ∀ p : Nat, vtkViewport.addConsumerCalls s.2 p =
      vtkViewport.removeConsumerCalls s.2 p + (if p ∈ s.1.Props then 1 else 0)) :
    (vtkViewport.callOp s op).1.Props.Nodup ∧
    ∀ p : Nat, vtkViewport.addConsumerCalls (vtkViewport.callOp s op).2 p =
      vtkViewport.removeConsumerCalls (vtkViewport.callOp s op).2 p +
        (if p ∈ (vtkViewport.callOp s op).1.Props then 1 else 0) := by
  obtain ⟨vp, calls⟩ := s
  simp only at hnd hc
  have add_case : ∀ q : Option Nat,
      (vp.AddProp q).1.Props.Nodup ∧
      ∀ p : Nat, vtkViewport.addConsumerCalls (calls ++ (vp.AddProp q).2) p =
        vtkViewport.removeConsumerCalls (calls ++ (vp.AddProp q).2) p +
          (if p ∈ (vp.AddProp q).1.Props then 1 else 0) := by
    intro q
    cases q with
    | none => exact ⟨by simpa [vtkViewport.AddProp] using hnd, by simpa [vtkViewport.AddProp] using hc⟩
    | some a =>
      by_cases ha : a ∈ vp.Props
      · have h1 : vp.HasProp (some a) ≠ 0 := by
          rw [(hasProp_eq_one_iff vp a).mpr ha]; decide
        simp only [vtkViewport.AddProp, if_neg h1, List.append_nil]
        exact ⟨hnd, hc⟩
      · have h0 : vp.HasProp (some a) = 0 :=
          (hasProp_eq_zero_iff vp (some a)).mpr (fun b hb => by cases hb; exact ha)
        simp only [vtkViewport.AddProp, if_pos h0, vtkCollection.AddItem]
        refine ⟨?_, ?_⟩
        · exact List.Nodup.append hnd (List.nodup_singleton a) (by simpa using ha)
        · intro p
          have := hc p
          simp only [vtkViewport.addConsumerCalls, vtkViewport.removeConsumerCalls,
            List.count_append, List.mem_append, List.mem_singleton] at this ⊢
          by_cases hpa : p = a
          · subst hpa
            simp [ha] at this ⊢
            omega
          · have hne : PropCall.AddConsumer a ≠ PropCall.AddConsumer p := by
              simpa using fun h => hpa h.symm
            simp [hpa, List.count_cons_of_ne hne.symm] at this ⊢
            omega
  have remove_case : ∀ (vp1 : vtkViewport) (q : Option Nat), vp1.Props = vp.Props →
      (vp1.RemoveProp q).1.Props.Nodup ∧
      ∀ p : Nat, vtkViewport.addConsumerCalls (calls ++ (vp1.RemoveProp q).2) p =
        vtkViewport.removeConsumerCalls (calls ++ (vp1.RemoveProp q).2) p +
          (if p ∈ (vp1.RemoveProp q).1.Props then 1 else 0) := by
    intro vp1 q hprops
    cases q with
    | none =>
      exact ⟨by simpa [vtkViewport.RemoveProp, hprops] using hnd,
        by simpa [vtkViewport.RemoveProp, hprops] using hc⟩
    | some a =>
      by_cases ha : a ∈ vp.Props
      · have h1 : vp1.HasProp (some a) ≠ 0 := by
          rw [(hasProp_eq_one_iff vp1 a).mpr (by rw [hprops]; exact ha)]; decide
        simp only [vtkViewport.RemoveProp, if_pos h1, vtkCollection.RemoveItem, hprops]
        refine ⟨hnd.erase a, ?_⟩
        intro p
        have := hc p
        simp only [vtkViewport.addConsumerCalls, vtkViewport.removeConsumerCalls,
          List.count_append, hnd.mem_erase_iff] at this ⊢
        by_cases hpa : p = a
        · subst hpa
          simp [ha] at this ⊢
          omega
        · have hne : PropCall.RemoveConsumer p ≠ PropCall.RemoveConsumer a := by
            simpa using hpa
          simp [hpa, List.count_cons_of_ne hne] at this ⊢
          omega
      · have h0 : vp1.HasProp (some a) = 0 :=
          (hasProp_eq_zero_iff vp1 (some a)).mpr
            (fun b hb => by cases hb; rw [hprops]; exact ha)
        have h0n : ¬ vp1.HasProp (some a) ≠ 0 := fun h => h h0
        simp only [vtkViewport.RemoveProp, if_neg h0n, List.append_nil, hprops]
        exact ⟨hnd, hc⟩
  cases op with
  | AddProp q => exact add_case q
  | RemoveProp q => exact remove_case vp q rfl
  | RemoveActor2D q =>
    cases q with
    | none => exact remove_case vp none rfl
    | some a =>
      exact remove_case { vp with Actors2D := vtkCollection.RemoveItem vp.Actors2D a }
        (some a) rfl
  | RemoveAllProps =>
    refine ⟨by simp [vtkViewport.callOp, vtkViewport.RemoveAllProps,
      vtkCollection.RemoveAllItems], ?_⟩
    intro p
    have h1 := hc p
    obtain ⟨h2, h3⟩ := removeAllProps_calls vp p
    simp only [vtkViewport.addConsumerCalls, vtkViewport.removeConsumerCalls] at h1 h2 h3
    simp only [vtkViewport.callOp, vtkViewport.addConsumerCalls,
      vtkViewport.removeConsumerCalls, List.count_append, h2, h3]
    have hempty : (vp.RemoveAllProps).1.Props = [] := rfl
    simp only [hempty, List.not_mem_nil, if_false, add_zero]
    by_cases hp : p ∈ vp.Props
    · rw [List.count_eq_one_of_mem hnd hp]
      simp [hp] at h1 ⊢
      omega
    · rw [List.count_eq_zero_of_not_mem hp]
      simp [hp] at h1 ⊢
      omega

/-- The registry invariant holds after every finite sequence of calls that
starts in a state where it holds. -/
theorem callOps_invariant (ops : List vtkViewport.PropOp) :
    ∀ s : vtkViewport × List PropCall, s.1.Props.Nodup →
      (∀ p : Nat, vtkViewport.addConsumerCalls s.2 p =
        vtkViewport.removeConsumerCalls s.2 p + (if p ∈ s.1.Props then 1 else 0)) →
      (vtkViewport.callOps ops s).1.Props.Nodup ∧
      ∀ p : Nat, vtkViewport.addConsumerCalls (vtkViewport.callOps ops s).2 p =
        vtkViewport.removeConsumerCalls (vtkViewport.callOps ops s).2 p +
          (if p ∈ (vtkViewport.callOps ops s).1.Props then 1 else 0) := by
  induction ops with
  | nil => intro s hnd hc; exact ⟨hnd, hc⟩
  | cons op ops ih =>
    intro s hnd hc
    obtain ⟨h1, h2⟩ := callOp_invariant s op hnd hc
    exact ih (vtkViewport.callOp s op) h1 h2

/-- C17: starting from an empty prop collection, after every finite sequence
of `AddProp`, `RemoveProp`, `RemoveActor2D` and `RemoveAllProps` calls (with any
props, null or repeated), the collection has no duplicates and, for every prop
`p`, the number of `AddConsumer` calls on `p` less the number of
`RemoveConsumer` calls on `p` is 1 if `HasProp(p)` and 0 otherwise.  `AddProp`
of a present prop and `RemoveProp` of an absent or null prop change nothing
and make no call. -/
theorem prop_registry_invariant (vp0 : vtkViewport) (h0 : vp0.Props = [])
    (ops : List vtkViewport.PropOp) :
    (vtkViewport.callOps ops (vp0, [])).1.Props.Nodup ∧
    (∀ p : Nat,
      (vtkViewport.addConsumerCalls (vtkViewport.callOps ops (vp0, [])).2 p : Int) -
        (vtkViewport.removeConsumerCalls (vtkViewport.callOps ops (vp0, [])).2 p : Int) =
      if (vtkViewport.callOps ops (vp0, [])).1.HasProp (some p) = 1 then 1 else 0) ∧
    (∀ (vp : vtkViewport) (p : Option Nat), vp.HasProp p = 1 → vp.AddProp p = (vp, [])) ∧
    (∀ (vp : vtkViewport) (p : Option Nat), vp.HasProp p = 0 → vp.RemoveProp p = (vp, [])) ∧
    (∀ vp : vtkViewport, vp.HasProp none = 0) := by
  obtain ⟨h1, h2⟩ := callOps_invariant ops (vp0, []) (by simp [h0])
    (by intro p; simp [vtkViewport.addConsumerCalls, vtkViewport.removeConsumerCalls, h0])
  refine ⟨h1, ?_, ?_, ?_, fun vp => rfl⟩
  · intro p
    rw [h2 p]
    by_cases hp : p ∈ (vtkViewport.callOps ops (vp0, [])).1.Props
    · rw [if_pos hp, if_pos ((hasProp_eq_one_iff _ p).mpr hp)]
      push_cast
      ring
    · have hne : ¬ (vtkViewport.callOps ops (vp0, [])).1.HasProp (some p) = 1 :=
        fun h => hp ((hasProp_eq_one_iff _ p).mp h)
      rw [if_neg hp, if_neg hne]
      push_cast
      ring
  · intro vp p hp
    cases p with
    | none => rfl
    | some a =>
      have hne : ¬ vp.HasProp (some a) = 0 := by rw [hp]; decide
      simp only [vtkViewport.AddProp, if_neg hne]
  · intro vp p hp
    cases p with
    | none => rfl
    | some a =>
      have hne : ¬ vp.HasProp (some a) ≠ 0 := fun h => h hp
      simp only [vtkViewport.RemoveProp, if_neg hne]

/-- C17 on a fresh viewport and the calls `AddProp(1)`, `AddProp(1)`,
`AddProp(NULL)`, `AddProp(2)`, `RemoveProp(3)`, `RemoveActor2D(1)`,
`RemoveAllProps()`, `AddProp(2)`. -/
theorem prop_registry_invariant_witness :
    (vtkViewport.callOps
      [vtkViewport.PropOp.AddProp (some 1), vtkViewport.PropOp.AddProp (some 1),
       vtkViewport.PropOp.AddProp none, vtkViewport.PropOp.AddProp (some 2),
       vtkViewport.PropOp.RemoveProp (some 3), vtkViewport.PropOp.RemoveActor2D (some 1),
       vtkViewport.PropOp.RemoveAllProps, vtkViewport.PropOp.AddProp (some 2)]
      (vtkViewport.new, [])).1.Props.Nodup :=
  (prop_registry_invariant vtkViewport.new rfl
    [vtkViewport.PropOp.AddProp (some 1), vtkViewport.PropOp.AddProp (some 1),
     vtkViewport.PropOp.AddProp none, vtkViewport.PropOp.AddProp (some 2),
     vtkViewport.PropOp.RemoveProp (some 3), vtkViewport.PropOp.RemoveActor2D (some 1),
     vtkViewport.PropOp.RemoveAllProps, vtkViewport.PropOp.AddProp (some 2)]).1

/-! ### Adjacent viewports and the corners in view coordinates -/

/-- The cast `(int)(W + 0.5)` of a non-negative integer `W` is `W`. -/
theorem toInt_int_add_half (W : Int) (h : 0 ≤ W) : toInt ((W : ℚ) + 1 / 2) = W := by
  have hq : (0 : ℚ) ≤ W := by exact_mod_cast h
  rw [toInt_of_nonneg (by linarith), Int.floor_int_add]
  have : ⌊(1 / 2 : ℚ)⌋ = 0 := by norm_num [Int.floor_eq_iff]
  omega

/-- C21: two viewports `a` and `b` on the same surface of size `W,H >= 0` tile
it without gap or overlap: if `a.x1 = b.x0` then
`a.GetOrigin().x + a.GetSize().x = b.GetOrigin().x`, and likewise on the y axis
when `a.y1 = b.y0`; and for `0 <= x0 <= x1 <= 1` (resp. `y`) the component of
`GetSize` lies between 0 and the surface size. -/
theorem adjacent_viewports_tile (a b : vtkViewport) (win : vtkWindow)
    (ha : a.VTKWindow = some win) (hb : b.VTKWindow = some win)
    (hW : 0 ≤ win.Size.c0) (hH : 0 ≤ win.Size.c1) :
    (a.Viewport.c2 = b.Viewport.c0 → a.GetOrigin.2.c0 + a.GetSize.2.c0 = b.GetOrigin.2.c0) ∧
    (a.Viewport.c3 = b.Viewport.c1 → a.GetOrigin.2.c1 + a.GetSize.2.c1 = b.GetOrigin.2.c1) ∧
    (0 ≤ a.Viewport.c0 → a.Viewport.c0 ≤ a.Viewport.c2 → a.Viewport.c2 ≤ 1 →
      0 ≤ a.GetSize.2.c0 ∧ a.GetSize.2.c0 ≤ win.Size.c0) ∧
    (0 ≤ a.Viewport.c1 → a.Viewport.c1 ≤ a.Viewport.c3 → a.Viewport.c3 ≤ 1 →
      0 ≤ a.GetSize.2.c1 ∧ a.GetSize.2.c1 ≤ win.Size.c1) := by
  have hWq : (0 : ℚ) ≤ win.Size.c0 := by exact_mod_cast hW
  have hHq : (0 : ℚ) ≤ win.Size.c1 := by exact_mod_cast hH
  have hhalf : toInt ((0 : ℚ) + 1 / 2) = 0 := by
    have := toInt_int_add_half 0 le_rfl
    simpa using this
  simp only [vtkViewport.GetSize, vtkViewport.GetOrigin, vtkViewport.NormalizedDisplayToDisplay,
    ha, hb]
  refine ⟨?_, ?_, ?_, ?_⟩
  · intro h
    rw [h]
    omega
  · intro h
    rw [h]
    omega
  · intro h0 h01 h1
    have m1 := toInt_mono (show a.Viewport.c0 * (win.Size.c0 : ℚ) + 1 / 2 ≤
      a.Viewport.c2 * (win.Size.c0 : ℚ) + 1 / 2 by nlinarith)
    have m2 := toInt_mono (show a.Viewport.c2 * (win.Size.c0 : ℚ) + 1 / 2 ≤
      (win.Size.c0 : ℚ) + 1 / 2 by nlinarith)
    have m3 := toInt_mono (show (0 : ℚ) + 1 / 2 ≤
      a.Viewport.c0 * (win.Size.c0 : ℚ) + 1 / 2 by nlinarith)
    rw [toInt_int_add_half _ hW] at m2
    rw [hhalf] at m3
    constructor <;> omega
  · intro h0 h01 h1
    have m1 := toInt_mono (show a.Viewport.c1 * (win.Size.c1 : ℚ) + 1 / 2 ≤
      a.Viewport.c3 * (win.Size.c1 : ℚ) + 1 / 2 by nlinarith)
    have m2 := toInt_mono (show a.Viewport.c3 * (win.Size.c1 : ℚ) + 1 / 2 ≤
      (win.Size.c1 : ℚ) + 1 / 2 by nlinarith)
    have m3 := toInt_mono (show (0 : ℚ) + 1 / 2 ≤
      a.Viewport.c1 * (win.Size.c1 : ℚ) + 1 / 2 by nlinarith)
    rw [toInt_int_add_half _ hH] at m2
    rw [hhalf] at m3
    constructor <;> omega

/-- C21 on a 10x10 surface with the rectangles `(0, 0, 1/3, 1/2)` and
`(1/3, 1/2, 1, 1)`, which share the corner `(1/3, 1/2)`. -/
theorem adjacent_viewports_tile_witness :
    (vtkViewport.GetOrigin
        { vtkViewport.new with
          VTKWindow := some ⟨⟨10, 10⟩, ⟨0, 0, 1, 1⟩⟩
          Viewport := ⟨0, 0, 1 / 3, 1 / 2⟩ }).2.c0 +
      (vtkViewport.GetSize
        { vtkViewport.new with
          VTKWindow := some ⟨⟨10, 10⟩, ⟨0, 0, 1, 1⟩⟩
          Viewport := ⟨0, 0, 1 / 3, 1 / 2⟩ }).2.c0 =
      (vtkViewport.GetOrigin
        { vtkViewport.new with
          VTKWindow := some ⟨⟨10, 10⟩, ⟨0, 0, 1, 1⟩⟩
          Viewport := ⟨1 / 3, 1 / 2, 1, 1⟩ }).2.c0 ∧
    0 ≤ (vtkViewport.GetSize
        { vtkViewport.new with
          VTKWindow := some ⟨⟨10, 10⟩, ⟨0, 0, 1, 1⟩⟩
          Viewport := ⟨0, 0, 1 / 3, 1 / 2⟩ }).2.c0 ∧
    (vtkViewport.GetSize
        { vtkViewport.new with
          VTKWindow := some ⟨⟨10, 10⟩, ⟨0, 0, 1, 1⟩⟩
          Viewport := ⟨0, 0, 1 / 3, 1 / 2⟩ }).2.c0 ≤ 10 :=
  have h := adjacent_viewports_tile
    { vtkViewport.new with
      VTKWindow := some ⟨⟨10, 10⟩, ⟨0, 0, 1, 1⟩⟩
      Viewport := ⟨0, 0, 1 / 3, 1 / 2⟩ }
    { vtkViewport.new with
      VTKWindow := some ⟨⟨10, 10⟩, ⟨0, 0, 1, 1⟩⟩
      Viewport := ⟨1 / 3, 1 / 2, 1, 1⟩ }
    ⟨⟨10, 10⟩, ⟨0, 0, 1, 1⟩⟩ rfl rfl (by decide) (by decide)
  ⟨h.1 rfl, h.2.2.1 (by norm_num) (by norm_num) (by norm_num)⟩

/-- C22: with a surface of non-zero size and a non-degenerate viewport
rectangle, `DisplayToView` maps the centre `GetCenter()` to the view
coordinates `(0,0)`, the lower-left corner `(x0*W, y0*H)` to
`(-aspect.x, -aspect.y)` and the upper-right corner `(x1*W, y1*H)` to
`(aspect.x, aspect.y)`; the third coordinate is carried over. -/
theorem displayToView_centre_and_corners (vp : vtkViewport) (win : vtkWindow)
    (hwin : vp.VTKWindow = some win) (hW : win.Size.c0 ≠ 0) (hH : win.Size.c1 ≠ 0)
    (hx : vp.Viewport.c0 ≠ vp.Viewport.c2) (hy : vp.Viewport.c1 ≠ vp.Viewport.c3) (z : ℚ) :
    (vtkViewport.DisplayToView
      { vp with DisplayPoint := ⟨vp.GetCenter.2.c0, vp.GetCenter.2.c1, z⟩ }).ViewPoint
      = ⟨0, 0, z⟩ ∧
    (vtkViewport.DisplayToView
      { vp with DisplayPoint :=
          ⟨vp.Viewport.c0 * (win.Size.c0 : ℚ), vp.Viewport.c1 * (win.Size.c1 : ℚ), z⟩ }).ViewPoint
      = ⟨-vp.Aspect.c0, -vp.Aspect.c1, z⟩ ∧
    (vtkViewport.DisplayToView
      { vp with DisplayPoint :=
          ⟨vp.Viewport.c2 * (win.Size.c0 : ℚ), vp.Viewport.c3 * (win.Size.c1 : ℚ), z⟩ }).ViewPoint
      = ⟨vp.Aspect.c0, vp.Aspect.c1, z⟩ := by
  have hWq : (win.Size.c0 : ℚ) ≠ 0 := by exact_mod_cast hW
  have hHq : (win.Size.c1 : ℚ) ≠ 0 := by exact_mod_cast hH
  have hxq : vp.Viewport.c2 - vp.Viewport.c0 ≠ 0 := fun h => hx (by linarith)
  have hyq : vp.Viewport.c3 - vp.Viewport.c1 ≠ 0 := fun h => hy (by linarith)
  have hdx : (win.Size.c0 : ℚ) * (vp.Viewport.c2 - vp.Viewport.c0) ≠ 0 := mul_ne_zero hWq hxq
  have hdy : (win.Size.c1 : ℚ) * (vp.Viewport.c3 - vp.Viewport.c1) ≠ 0 := mul_ne_zero hHq hyq
  refine ⟨?_, ?_, ?_⟩
  · simp only [vtkViewport.DisplayToView, vtkViewport.GetCenter, vtkViewport.SetViewPoint, hwin,
      Double3.mk.injEq, and_true]
    constructor
    · have e : 2 * ((vp.Viewport.c2 + vp.Viewport.c0) / 2 * (win.Size.c0 : ℚ) -
          (win.Size.c0 : ℚ) * vp.Viewport.c0) /
          ((win.Size.c0 : ℚ) * (vp.Viewport.c2 - vp.Viewport.c0)) = 1 := by
        rw [div_eq_one_iff_eq hdx]
        ring
      rw [e]
      ring
    · have e : 2 * ((vp.Viewport.c3 + vp.Viewport.c1) / 2 * (win.Size.c1 : ℚ) -
          (win.Size.c1 : ℚ) * vp.Viewport.c1) /
          ((win.Size.c1 : ℚ) * (vp.Viewport.c3 - vp.Viewport.c1)) = 1 := by
        rw [div_eq_one_iff_eq hdy]
        ring
      rw [e]
      ring
  · simp only [vtkViewport.DisplayToView, vtkViewport.SetViewPoint, hwin,
      Double3.mk.injEq, and_true]
    constructor
    · have e : vp.Viewport.c0 * (win.Size.c0 : ℚ) - (win.Size.c0 : ℚ) * vp.Viewport.c0 = 0 := by
        ring
      rw [e]
      simp
    · have e : vp.Viewport.c1 * (win.Size.c1 : ℚ) - (win.Size.c1 : ℚ) * vp.Viewport.c1 = 0 := by
        ring
      rw [e]
      simp
  · simp only [vtkViewport.DisplayToView, vtkViewport.SetViewPoint, hwin,
      Double3.mk.injEq, and_true]
    constructor
    · have e : 2 * (vp.Viewport.c2 * (win.Size.c0 : ℚ) - (win.Size.c0 : ℚ) * vp.Viewport.c0) /
          ((win.Size.c0 : ℚ) * (vp.Viewport.c2 - vp.Viewport.c0)) = 2 := by
        rw [div_eq_iff hdx]
        ring
      rw [e]
      ring
    · have e : 2 * (vp.Viewport.c3 * (win.Size.c1 : ℚ) - (win.Size.c1 : ℚ) * vp.Viewport.c1) /
          ((win.Size.c1 : ℚ) * (vp.Viewport.c3 - vp.Viewport.c1)) = 2 := by
        rw [div_eq_iff hdy]
        ring
      rw [e]
      ring

/-- C22 on a 640x480 surface with the rectangle `(1/4, 0, 1, 1/2)` and aspect
`(4/3, 1)`: the upper-right corner `(640, 240)` maps to `(4/3, 1)`. -/
theorem displayToView_centre_and_corners_witness :
    (vtkViewport.DisplayToView
      { ({ vtkViewport.new with
            VTKWindow := some ⟨⟨640, 480⟩, ⟨0, 0, 1, 1⟩⟩
            Viewport := ⟨1 / 4, 0, 1, 1 / 2⟩
            Aspect := ⟨4 / 3, 1⟩ } : vtkViewport) with
        DisplayPoint := ⟨1 * ((640 : Int) : ℚ), 1 / 2 * ((480 : Int) : ℚ), 7⟩ }).ViewPoint
      = ⟨4 / 3, 1, 7⟩ :=
  (displayToView_centre_and_corners
    { vtkViewport.new with
      VTKWindow := some ⟨⟨640, 480⟩, ⟨0, 0, 1, 1⟩⟩
      Viewport := ⟨1 / 4, 0, 1, 1 / 2⟩
      Aspect := ⟨4 / 3, 1⟩ }
    ⟨⟨640, 480⟩, ⟨0, 0, 1, 1⟩⟩ rfl (by decide) (by decide) (by norm_num) (by norm_num) 7).2.2

/-! ## Theorems: the attribute transfer filter -/

namespace vtkTransferAttributes

/-- Reading a bound key leaves the map as it is and yields the bound value. -/
theorem mapIndex_of_lookup {κ : Type} [DecidableEq κ] {m : List (κ × Nat)} {k : κ} {v : Nat}
    (h : m.lookup k = some v) : mapIndex m k = (v, m) := by
  simp [mapIndex, h]

/-- One more round of the identity loop binds the next position to itself. -/
theorem identityMap_succ (n : Nat) : identityMap (n + 1) = (n, n) :: identityMap n := by
  simp [identityMap, List.range_succ, List.foldl_append, mapAssign]

/-- The identity map binds every position below `n` to itself. -/
theorem identityMap_lookup (n k : Nat) (h : k < n) : (identityMap n).lookup k = some k := by
  induction n with
  | zero => omega
  | succ n ih =>
    rw [identityMap_succ, List.lookup_cons]
    by_cases hk : k = n
    · subst hk
      simp
    · have hb : (k == n) = false := by simp [hk]
      rw [hb]
      exact ih (by omega)

/-- The validation part of `RequestData`: once both associations resolve, both
names are set, both identifier arrays and the source array exist, the call
fails exactly on the size check of direct mapping and otherwise adds the
transferred array to the output. -/
theorem requestData_of_valid {ι : Type} [DecidableEq ι] (self : vtkTransferAttributes)
    (targetInput sourceInput : vtkDataObject ι) (dsa_source dsa_target : vtkDataSetAttributes ι)
    (sourceArrayName targetArrayName : String) (sourceIdArray targetIdArray : List ι)
    (sourceArray : List Int)
    (hs : selectAttributes sourceInput self.SourceFieldType = some dsa_source)
    (ht : selectAttributes targetInput self.TargetFieldType = some dsa_target)
    (hsn : self.SourceArrayName = some sourceArrayName)
    (htn : self.TargetArrayName = some targetArrayName)
    (hsid : dsa_source.PedigreeIds = some sourceIdArray)
    (htid : dsa_target.PedigreeIds = some targetIdArray)
    (harr : GetAbstractArray dsa_source sourceArrayName = some sourceArray) :
    RequestData self targetInput sourceInput =
      if self.DirectMapping = true ∧ sourceIdArray.length > targetIdArray.length then
        some (0, targetInput)
      else
        some (1, withAttributes targetInput self.TargetFieldType
          (AddArray dsa_target targetArrayName
            (transferArray self.DefaultValue
              (if self.DirectMapping = true then identityMap sourceIdArray.length
               else sourceIndexToTargetIndex sourceIdArray targetIdArray)
              sourceArray targetIdArray.length).targetArray)) := by
  simp only [RequestData, hs, ht, hsn, htn, hsid, htid, harr]

/-- The copy loop under an index that binds every source position to itself,
on non-negative source values: after `k` rounds the first `k` output
positions hold the source values, the others the default value, and the index
is unchanged. -/
theorem copyLoop_identity (d : Int) (m : List (Nat × Nat)) (src : List Int) (T : Nat)
    (hm : ∀ i, i < src.length → m.lookup i = some i) (hnn : ∀ x ∈ src, 0 ≤ x)
    (hT : src.length ≤ T) (k : Nat) (hk : k ≤ src.length) :
    ((List.range k).foldl (copyStep src)
        { index := m, targetArray := List.replicate T d, written := [] }).index = m ∧
    ((List.range k).foldl (copyStep src)
        { index := m, targetArray := List.replicate T d, written := [] }).targetArray.length = T ∧
    (∀ j, j < k →
      ((List.range k).foldl (copyStep src)
        { index := m, targetArray := List.replicate T d, written := [] }).targetArray[j]?
        = src[j]?) ∧
    (∀ j, k ≤ j → j < T →
      ((List.range k).foldl (copyStep src)
        { index := m, targetArray := List.replicate T d, written := [] }).targetArray[j]?
        = some d) ∧
    ((List.range k).foldl (copyStep src)
        { index := m, targetArray := List.replicate T d, written := [] }).written
      = List.range k := by
  induction k with
  | zero =>
    refine ⟨rfl, by simp, ?_, ?_, rfl⟩
    · intro j hj
      omega
    · intro j _ hj
      simp [List.getElem?_replicate, hj]
  | succ k ih =>
    obtain ⟨i1, i2, i3, i4, i5⟩ := ih (by omega)
    have hklt : k < src.length := by omega
    have hval : src.getD k 0 = src[k] := List.getD_eq_getElem src 0 hklt
    have hpos : ¬ src[k] < 0 := not_lt.mpr (hnn _ (List.getElem_mem hklt))
    rw [List.range_succ, List.foldl_append]
    simp only [List.foldl_cons, List.foldl_nil]
    generalize (List.range k).foldl (copyStep src)
        { index := m, targetArray := List.replicate T d, written := [] } = st at i1 i2 i3 i4 i5
    have hstep : copyStep src st k =
        { index := m, targetArray := st.targetArray.set k src[k], written := st.written ++ [k] } := by
      simp only [copyStep, hval, hpos, if_false, i1, mapIndex_of_lookup (hm k hklt)]
    rw [hstep]
    refine ⟨rfl, ?_, ?_, ?_, ?_⟩
    · simp [i2]
    · intro j hj
      by_cases hjk : j = k
      · subst hjk
        simp only [List.getElem?_set, if_true]
        rw [if_pos (by omega), List.getElem?_eq_getElem hklt]
      · rw [List.getElem?_set_ne (Ne.symm hjk)]
        exact i3 j (by omega)
    · intro j hj1 hj2
      rw [List.getElem?_set_ne (by omega)]
      exact i4 j (by omega) hj2
    · simp [i5, List.range_succ]

/-- C4: direct-mapping transfer.  With `directMapping = true`, a valid
configuration, `|source| <= |target|` and non-negative source values,
`RequestData` succeeds and adds an array of exactly `|target|` elements with
`output[i] = sourceValue[i]` for `i < |source|` and `output[i] = defaultValue`
for `|source| <= i < |target|`. -/
theorem requestData_direct_mapping {ι : Type} [DecidableEq ι] (self : vtkTransferAttributes)
    (targetInput sourceInput : vtkDataObject ι) (dsa_source dsa_target : vtkDataSetAttributes ι)
    (sourceArrayName targetArrayName : String) (sourceIdArray targetIdArray : List ι)
    (sourceArray : List Int)
    (hdirect : self.DirectMapping = true)
    (hs : selectAttributes sourceInput self.SourceFieldType = some dsa_source)
    (ht : selectAttributes targetInput self.TargetFieldType = some dsa_target)
    (hsn : self.SourceArrayName = some sourceArrayName)
    (htn : self.TargetArrayName = some targetArrayName)
    (hsid : dsa_source.PedigreeIds = some sourceIdArray)
    (htid : dsa_target.PedigreeIds = some targetIdArray)
    (harr : GetAbstractArray dsa_source sourceArrayName = some sourceArray)
    (hlen : sourceArray.length = sourceIdArray.length)
    (hle : sourceIdArray.length ≤ targetIdArray.length)
    (hnn : ∀ x ∈ sourceArray, 0 ≤ x) :
    ∃ out : List Int,
      RequestData self targetInput sourceInput =
        some (1, withAttributes targetInput self.TargetFieldType
          (AddArray dsa_target targetArrayName out)) ∧
      out.length = targetIdArray.length ∧
      (∀ i (hi : i < sourceArray.length), out[i]? = some sourceArray[i]) ∧
      (∀ i, sourceIdArray.length ≤ i → i < targetIdArray.length →
        out[i]? = some self.DefaultValue) := by
  have hm : ∀ i, i < sourceArray.length →
      (identityMap sourceIdArray.length).lookup i = some i :=
    fun i hi => identityMap_lookup _ i (by omega)
  obtain ⟨-, h2, h3, h4, -⟩ := copyLoop_identity self.DefaultValue
    (identityMap sourceIdArray.length) sourceArray targetIdArray.length hm hnn (by omega)
    sourceArray.length le_rfl
  refine ⟨(transferArray self.DefaultValue (identityMap sourceIdArray.length) sourceArray
    targetIdArray.length).targetArray, ?_, h2, ?_, ?_⟩
  · rw [requestData_of_valid self targetInput sourceInput dsa_source dsa_target sourceArrayName
      targetArrayName sourceIdArray targetIdArray sourceArray hs ht hsn htn hsid htid harr]
    rw [if_neg (by omega), if_pos hdirect]
  · intro i hi
    rw [← List.getElem?_eq_getElem hi]
    exact h3 i hi
  · intro i hi1 hi2
    exact h4 i (by omega) hi2

/-- C4 on the example of the specification: source identifiers `[0,1,2]` with
values `[10,20,30]` and a target of three rows. -/
theorem requestData_direct_mapping_witness :
    ∃ out : List Int,
      RequestData
        { DirectMapping := true, DefaultValue := -1, SourceArrayName := some "s",
          TargetArrayName := some "t",
          SourceFieldType := FieldAssociations.FIELD_ASSOCIATION_ROWS,
          TargetFieldType := FieldAssociations.FIELD_ASSOCIATION_ROWS }
        (vtkDataObject.Table { PedigreeIds := some [7, 8, 9], Arrays := [] })
        (vtkDataObject.Table
          { PedigreeIds := some [0, 1, 2], Arrays := [("s", [10, 20, 30])] }) =
        some (1, vtkDataObject.Table { PedigreeIds := some [7, 8, 9], Arrays := [("t", out)] }) ∧
      out.length = 3 ∧ out[0]? = some 10 ∧ out[1]? = some 20 ∧ out[2]? = some 30 :=
  have h := requestData_direct_mapping
    { DirectMapping := true, DefaultValue := -1, SourceArrayName := some "s",
      TargetArrayName := some "t",
      SourceFieldType := FieldAssociations.FIELD_ASSOCIATION_ROWS,
      TargetFieldType := FieldAssociations.FIELD_ASSOCIATION_ROWS }
    (vtkDataObject.Table { PedigreeIds := some [7, 8, 9], Arrays := [] })
    (vtkDataObject.Table { PedigreeIds := some [0, 1, 2], Arrays := [("s", [10, 20, 30])] })
    { PedigreeIds := some [0, 1, 2], Arrays := [("s", [10, 20, 30])] }
    { PedigreeIds := some [7, 8, 9], Arrays := [] } "s" "t" [0, 1, 2] [7, 8, 9] [10, 20, 30]
    rfl rfl rfl rfl rfl rfl rfl rfl rfl (by decide) (by decide)
  match h with
  | ⟨out, h1, h2, h3, _⟩ =>
    ⟨out, h1, h2, h3 0 (by decide), h3 1 (by decide), h3 2 (by decide)⟩

/-- C5: with `directMapping = true` and an otherwise valid configuration,
`RequestData` returns a status, the status is failure (0) if and only if
`|sourceIds| > |targetIds|`, and on that failure the output is the unchanged
copy of the target input, so its selected attribute set is exactly the
attribute set of the target. -/
theorem requestData_direct_failure_iff {ι : Type} [DecidableEq ι] (self : vtkTransferAttributes)
    (targetInput sourceInput : vtkDataObject ι) (dsa_source dsa_target : vtkDataSetAttributes ι)
    (sourceArrayName targetArrayName : String) (sourceIdArray targetIdArray : List ι)
    (sourceArray : List Int)
    (hdirect : self.DirectMapping = true)
    (hs : selectAttributes sourceInput self.SourceFieldType = some dsa_source)
    (ht : selectAttributes targetInput self.TargetFieldType = some dsa_target)
    (hsn : self.SourceArrayName = some sourceArrayName)
    (htn : self.TargetArrayName = some targetArrayName)
    (hsid : dsa_source.PedigreeIds = some sourceIdArray)
    (htid : dsa_target.PedigreeIds = some targetIdArray)
    (harr : GetAbstractArray dsa_source sourceArrayName = some sourceArray) :
    ∃ (status : Int) (output : vtkDataObject ι),
      RequestData self targetInput sourceInput = some (status, output) ∧
      (status = 0 ∨ status = 1) ∧
      (status = 0 ↔ sourceIdArray.length > targetIdArray.length) ∧
      (status = 0 → output = targetInput ∧
        selectAttributes output self.TargetFieldType = some dsa_target) := by
  rw [requestData_of_valid self targetInput sourceInput dsa_source dsa_target sourceArrayName
    targetArrayName sourceIdArray targetIdArray sourceArray hs ht hsn htn hsid htid harr]
  by_cases hgt : sourceIdArray.length > targetIdArray.length
  · rw [if_pos ⟨hdirect, hgt⟩]
    exact ⟨0, targetInput, rfl, Or.inl rfl, by simp [hgt], fun _ => ⟨rfl, ht⟩⟩
  · rw [if_neg (fun h => hgt h.2)]
    exact ⟨1, _, rfl, Or.inr rfl, by simp [hgt], fun h => absurd h (by decide)⟩

/-- C5 on a source of three rows and a target of two rows: the call fails and
the output is the target input. -/
theorem requestData_direct_failure_iff_witness :
    ∃ (status : Int) (output : vtkDataObject Nat),
      RequestData
        { DirectMapping := true, DefaultValue := -1, SourceArrayName := some "s",
          TargetArrayName := some "t",
          SourceFieldType := FieldAssociations.FIELD_ASSOCIATION_ROWS,
          TargetFieldType := FieldAssociations.FIELD_ASSOCIATION_ROWS }
        (vtkDataObject.Table { PedigreeIds := some [7, 8], Arrays := [("a", [1, 2])] })
        (vtkDataObject.Table
          { PedigreeIds := some [0, 1, 2], Arrays := [("s", [10, 20, 30])] }) =
        some (status, output) ∧
      status = 0 ∧
      output = vtkDataObject.Table { PedigreeIds := some [7, 8], Arrays := [("a", [1, 2])] } :=
  have h := requestData_direct_failure_iff
    { DirectMapping := true, DefaultValue := -1, SourceArrayName := some "s",
      TargetArrayName := some "t",
      SourceFieldType := FieldAssociations.FIELD_ASSOCIATION_ROWS,
      TargetFieldType := FieldAssociations.FIELD_ASSOCIATION_ROWS }
    (vtkDataObject.Table { PedigreeIds := some [7, 8], Arrays := [("a", [1, 2])] })
    (vtkDataObject.Table { PedigreeIds := some [0, 1, 2], Arrays := [("s", [10, 20, 30])] })
    { PedigreeIds := some [0, 1, 2], Arrays := [("s", [10, 20, 30])] }
    { PedigreeIds := some [7, 8], Arrays := [("a", [1, 2])] } "s" "t" [0, 1, 2] [7, 8]
    [10, 20, 30] rfl rfl rfl rfl rfl rfl rfl rfl
  match h with
  | ⟨status, output, h1, _, h3, h4⟩ =>
    ⟨status, output, h1, h3.mpr (by decide), (h4 (h3.mpr (by decide))).1⟩

/-! ### The copy loop on source positions without a target

The copy loop reads `sourceIndexToTargetIndex[i]` for every source position
`i`.  For a position that has no entry the read yields `0`, so the value of a
source element whose identifier matches no target element is stored at output
position `0`. -/

/-- C2 (code defect), evaluated at source identifiers `[A,B]` with values
`[10,20]`, target identifiers `[A]`, default `-1`: the index holds the single
entry `0 ↦ 0`, the copy loop stores at positions `0` and `0`, and the output
array is `[20]`, although target position 0 carries the identifier of source
position 0, whose value is `10`. -/
theorem requestData_matched_value_overwritten :
    sourceIndexToTargetIndex ['A', 'B'] ['A'] = [(0, 0)] ∧
    (transferArray (-1) (sourceIndexToTargetIndex ['A', 'B'] ['A']) [10, 20] 1).written
      = [0, 0] ∧
    RequestData
      { DirectMapping := false, DefaultValue := -1, SourceArrayName := some "s",
        TargetArrayName := some "t",
        SourceFieldType := FieldAssociations.FIELD_ASSOCIATION_ROWS,
        TargetFieldType := FieldAssociations.FIELD_ASSOCIATION_ROWS }
      (vtkDataObject.Table { PedigreeIds := some ['A'], Arrays := [] })
      (vtkDataObject.Table { PedigreeIds := some ['A', 'B'], Arrays := [("s", [10, 20])] })
    = some (1, vtkDataObject.Table { PedigreeIds := some ['A'], Arrays := [("t", [20])] }) := by
  decide

/-- C3 (code defect), evaluated at source identifiers `[A]` with values
`[10]`, target identifiers `[D]`, default `-1`: the index is empty, the copy
loop still stores at position `0`, and the output array is `[10]`, although
target position 0 carries an identifier that no source element has. -/
theorem requestData_unmatched_target_not_default :
    sourceIndexToTargetIndex ['A'] ['D'] = [] ∧
    (transferArray (-1) (sourceIndexToTargetIndex ['A'] ['D']) [10] 1).written = [0] ∧
    RequestData
      { DirectMapping := false, DefaultValue := -1, SourceArrayName := some "s",
        TargetArrayName := some "t",
        SourceFieldType := FieldAssociations.FIELD_ASSOCIATION_ROWS,
        TargetFieldType := FieldAssociations.FIELD_ASSOCIATION_ROWS }
      (vtkDataObject.Table { PedigreeIds := some ['D'], Arrays := [] })
      (vtkDataObject.Table { PedigreeIds := some ['A'], Arrays := [("s", [10])] })
    = some (1, vtkDataObject.Table { PedigreeIds := some ['D'], Arrays := [("t", [10])] }) := by
  decide

/-- C6 (code defect), evaluated at source identifiers `[A,B]` with values
`[-5,20]`, target identifiers `[A]`, default `-1`: source position 0 is mapped
to target position 0 and its negative value is skipped, the call succeeds,
but the output array is `[20]` and not `[-1]`, since the value of the
unmatched source position 1 is stored at position `0`. -/
theorem requestData_negative_skip_overwritten :
    sourceIndexToTargetIndex ['A', 'B'] ['A'] = [(0, 0)] ∧
    (transferArray (-1) (sourceIndexToTargetIndex ['A', 'B'] ['A']) [-5, 20] 1).written
      = [0] ∧
    RequestData
      { DirectMapping := false, DefaultValue := -1, SourceArrayName := some "s",
        TargetArrayName := some "t",
        SourceFieldType := FieldAssociations.FIELD_ASSOCIATION_ROWS,
        TargetFieldType := FieldAssociations.FIELD_ASSOCIATION_ROWS }
      (vtkDataObject.Table { PedigreeIds := some ['A'], Arrays := [] })
      (vtkDataObject.Table { PedigreeIds := some ['A', 'B'], Arrays := [("s", [-5, 20])] })
    = some (1, vtkDataObject.Table { PedigreeIds := some ['A'], Arrays := [("t", [20])] }) := by
  decide

/-! ### Configuration failures -/

/-- The `if / else if` chain resolves an attribute set exactly for the
associations the input kind supports. -/
theorem selectAttributes_eq_none_iff {ι : Type} (input : vtkDataObject ι)
    (fieldType : FieldAssociations) :
    selectAttributes input fieldType = none ↔ associationSupported input fieldType = false := by
  cases input <;> cases fieldType <;> simp [selectAttributes, associationSupported]

/-- C18: if the source or the target association is not supported by the kind
of the input (mesh: points/cells, graph: vertices/edges, table: rows), or
`sourceArrayName` or `targetArrayName` is unset, or the source or target
identifier array is missing, then `RequestData` returns failure (0) and its
output is the unchanged copy of the target input (no array is added), in
either mapping mode. -/
theorem requestData_configuration_failure {ι : Type} [DecidableEq ι]
    (self : vtkTransferAttributes) (targetInput sourceInput : vtkDataObject ι)
    (h : associationSupported sourceInput self.SourceFieldType = false ∨
      associationSupported targetInput self.TargetFieldType = false ∨
      self.SourceArrayName = none ∨ self.TargetArrayName = none ∨
      (∃ dsa, selectAttributes sourceInput self.SourceFieldType = some dsa ∧
        dsa.PedigreeIds = none) ∨
      (∃ dsa, selectAttributes targetInput self.TargetFieldType = some dsa ∧
        dsa.PedigreeIds = none)) :
    RequestData self targetInput sourceInput = some (0, targetInput) := by
  cases hs : selectAttributes sourceInput self.SourceFieldType with
  | none => simp only [RequestData, hs]
  | some dsa_source =>
    cases ht : selectAttributes targetInput self.TargetFieldType with
    | none => simp only [RequestData, hs, ht]
    | some dsa_target =>
      cases hsn : self.SourceArrayName with
      | none => simp only [RequestData, hs, ht, hsn]
      | some sn =>
        cases htn : self.TargetArrayName with
        | none => simp only [RequestData, hs, ht, hsn, htn]
        | some tn =>
          cases hsid : dsa_source.PedigreeIds with
          | none => simp only [RequestData, hs, ht, hsn, htn, hsid]
          | some sids =>
            cases htid : dsa_target.PedigreeIds with
            | none => simp only [RequestData, hs, ht, hsn, htn, hsid, htid]
            | some tids =>
              exfalso
              rcases h with h | h | h | h | ⟨dsa, h1, h2⟩ | ⟨dsa, h1, h2⟩
              · rw [← selectAttributes_eq_none_iff, hs] at h
                exact Option.noConfusion h
              · rw [← selectAttributes_eq_none_iff, ht] at h
                exact Option.noConfusion h
              · rw [hsn] at h
                exact Option.noConfusion h
              · rw [htn] at h
                exact Option.noConfusion h
              · rw [hs] at h1
                cases h1
                rw [hsid] at h2
                exact Option.noConfusion h2
              · rw [ht] at h1
                cases h1
                rw [htid] at h2
                exact Option.noConfusion h2

/-- C18 on a graph source asked for its rows. -/
theorem requestData_configuration_failure_witness :
    RequestData
      { DirectMapping := false, DefaultValue := -1, SourceArrayName := some "s",
        TargetArrayName := some "t",
        SourceFieldType := FieldAssociations.FIELD_ASSOCIATION_ROWS,
        TargetFieldType := FieldAssociations.FIELD_ASSOCIATION_ROWS }
      (vtkDataObject.Table { PedigreeIds := some ['C', 'A'], Arrays := [("a", [1, 2])] })
      (vtkDataObject.Graph
        { PedigreeIds := some ['A', 'B'], Arrays := [("s", [10, 20])] }
        { PedigreeIds := none, Arrays := [] })
    = some (0, vtkDataObject.Table
        { PedigreeIds := some ['C', 'A'], Arrays := [("a", [1, 2])] }) :=
  requestData_configuration_failure _ _ _ (Or.inl rfl)

/-! ### Index construction -/

/-- A loop `for (i = 0; i < n; i++) if (key(i) exists) m[key(i)] = i` binds a
key `k` to `t` exactly when `t` is the last position below `n` whose key is
`k`. -/
theorem lookup_foldl_range {κ : Type} [DecidableEq κ] (key : Nat → Option κ)
    (f : List (κ × Nat) → Nat → List (κ × Nat))
    (hnone : ∀ m i, key i = none → f m i = m)
    (hsome : ∀ m i a, key i = some a → f m i = mapAssign m a i)
    (n : Nat) (k : κ) (t : Nat) :
    ((List.range n).foldl f []).lookup k = some t ↔
      t < n ∧ key t = some k ∧ ∀ t2, t < t2 → t2 < n → key t2 ≠ some k := by
  induction n with
  | zero => simp
  | succ n ih =>
    rw [List.range_succ, List.foldl_append]
    simp only [List.foldl_cons, List.foldl_nil]
    cases hk : key n with
    | none =>
      rw [hnone _ _ hk, ih]
      constructor
      · rintro ⟨h1, h2, h3⟩
        refine ⟨by omega, h2, ?_⟩
        intro t2 ht2 ht2n
        by_cases e : t2 = n
        · subst e
          rw [hk]
          exact Option.noConfusion
        · exact h3 t2 ht2 (by omega)
      · rintro ⟨h1, h2, h3⟩
        have hne : t ≠ n := by
          intro e
          subst e
          rw [hk] at h2
          exact Option.noConfusion h2
        exact ⟨by omega, h2, fun t2 ht2 ht2n => h3 t2 ht2 (by omega)⟩
    | some a =>
      rw [hsome _ _ _ hk, mapAssign, List.lookup_cons]
      by_cases hka : k = a
      · subst hka
        simp only [beq_self_eq_true, Option.some.injEq]
        constructor
        · intro e
          subst e
          exact ⟨by omega, hk, fun t2 h1 h2 => by omega⟩
        · rintro ⟨h1, h2, h3⟩
          by_contra hne
          exact h3 n (by omega) (by omega) hk
      · have hb : (k == a) = false := by simpa using hka
        rw [hb]
        simp only []
        rw [ih]
        constructor
        · rintro ⟨h1, h2, h3⟩
          refine ⟨by omega, h2, ?_⟩
          intro t2 ht2 ht2n
          by_cases e : t2 = n
          · subst e
            rw [hk]
            intro hc
            exact hka (Option.some.inj hc).symm
          · exact h3 t2 ht2 (by omega)
        · rintro ⟨h1, h2, h3⟩
          have hne : t ≠ n := by
            intro e
            subst e
            rw [hk] at h2
            exact hka (Option.some.inj h2).symm
          exact ⟨by omega, h2, fun t2 ht2 ht2n => h3 t2 ht2 (by omega)⟩

/-- The first loop binds every identifier of the source to the last source
position that carries it. -/
theorem sourceInputIdMap_lookup {ι : Type} [DecidableEq ι] (sourceIdArray : List ι)
    (id : ι) (s : Nat) :
    (sourceInputIdMap sourceIdArray).lookup id = some s ↔
      sourceIdArray[s]? = some id ∧ ∀ s2, s < s2 → sourceIdArray[s2]? ≠ some id := by
  unfold sourceInputIdMap
  rw [lookup_foldl_range (fun i => sourceIdArray[i]?) _
    (fun m i h => by simp only [h]) (fun m i a h => by simp only [h])
    sourceIdArray.length id s]
  constructor
  · rintro ⟨h1, h2, h3⟩
    refine ⟨h2, fun s2 hs2 hc => ?_⟩
    have hlt : s2 < sourceIdArray.length := by
      by_contra hge
      rw [List.getElem?_eq_none (by omega)] at hc
      exact Option.noConfusion hc
    exact h3 s2 hs2 hlt hc
  · rintro ⟨h1, h2⟩
    have hlt : s < sourceIdArray.length := by
      by_contra hge
      rw [List.getElem?_eq_none (by omega)] at h1
      exact Option.noConfusion h1
    exact ⟨hlt, h1, fun s2 hs2 _ => h2 s2 hs2⟩

/-- The two loops together: source position `s` is bound to target position
`t` exactly when some identifier has `s` as its last source position and `t`
as its last target position. -/
theorem sourceIndexToTargetIndex_lookup {ι : Type} [DecidableEq ι]
    (sourceIdArray targetIdArray : List ι) (s t : Nat) :
    (sourceIndexToTargetIndex sourceIdArray targetIdArray).lookup s = some t ↔
      ∃ id, sourceIdArray[s]? = some id ∧ (∀ s2, s < s2 → sourceIdArray[s2]? ≠ some id) ∧
        targetIdArray[t]? = some id ∧ (∀ t2, t < t2 → targetIdArray[t2]? ≠ some id) := by
  have hkey : ∀ i : Nat,
      (targetIdArray[i]?).bind
        (fun id => (sourceInputIdMap sourceIdArray).lookup id) = some s ↔
      ∃ id, targetIdArray[i]? = some id ∧ sourceIdArray[s]? = some id ∧
        ∀ s2, s < s2 → sourceIdArray[s2]? ≠ some id := by
    intro i
    cases hti : targetIdArray[i]? with
    | none => simp
    | some id =>
      simp only [Option.some_bind, Option.some.injEq, exists_eq_left',
        ← sourceInputIdMap_lookup]
  have hl := lookup_foldl_range
    (fun i => (targetIdArray[i]?).bind (fun id => (sourceInputIdMap sourceIdArray).lookup id))
    (fun (m : List (Nat × Nat)) (i : Nat) =>
      match targetIdArray[i]? with
      | some id =>
        if mapCount (sourceInputIdMap sourceIdArray) id = true then
          mapAssign m (mapIndex (sourceInputIdMap sourceIdArray) id).1 i
        else m
      | none => m)
    (by
      intro m i h
      beta_reduce at h ⊢
      cases hti : targetIdArray[i]? with
      | none => rfl
      | some id =>
        rw [hti] at h
        simp only [Option.some_bind] at h
        simp [mapCount, h])
    (by
      intro m i a h
      beta_reduce at h ⊢
      cases hti : targetIdArray[i]? with
      | none =>
        rw [hti] at h
        exact Option.noConfusion h
      | some id =>
        rw [hti] at h
        simp only [Option.some_bind] at h
        simp [mapCount, mapIndex, h])
    targetIdArray.length s t
  unfold sourceIndexToTargetIndex
  refine hl.trans ?_
  constructor
  · rintro ⟨h1, h2, h3⟩
    obtain ⟨id, e1, e2, e3⟩ := (hkey t).mp h2
    refine ⟨id, e2, e3, e1, ?_⟩
    intro t2 ht2 hc
    have hlt : t2 < targetIdArray.length := by
      by_contra hge
      rw [List.getElem?_eq_none (by omega)] at hc
      exact Option.noConfusion hc
    exact h3 t2 ht2 hlt ((hkey t2).mpr ⟨id, hc, e2, e3⟩)
  · rintro ⟨id, e1, e2, e3, e4⟩
    have hlt : t < targetIdArray.length := by
      by_contra hge
      rw [List.getElem?_eq_none (by omega)] at e3
      exact Option.noConfusion e3
    refine ⟨hlt, (hkey t).mpr ⟨id, e3, e1, e2⟩, ?_⟩
    intro t2 ht2 _ hc
    obtain ⟨id2, f1, f2, _⟩ := (hkey t2).mp hc
    have hid : id2 = id := by
      rw [e1] at f2
      exact (Option.some.inj f2).symm
    subst hid
    exact e4 t2 ht2 f1

/-- C19: in identifier-mapping mode with a valid configuration, the index
built by the two loops binds source position `s` to target position `t` if and
only if `s` is the last source position carrying its identifier, that
identifier occurs among the target identifiers, and `t` is the last target
position carrying it; target identifiers absent from the source give no entry
and no failure: `RequestData` succeeds and transfers through this index. -/
theorem index_construction_entries {ι : Type} [DecidableEq ι] (self : vtkTransferAttributes)
    (targetInput sourceInput : vtkDataObject ι) (dsa_source dsa_target : vtkDataSetAttributes ι)
    (sourceArrayName targetArrayName : String) (sourceIdArray targetIdArray : List ι)
    (sourceArray : List Int)
    (hdirect : self.DirectMapping = false)
    (hs : selectAttributes sourceInput self.SourceFieldType = some dsa_source)
    (ht : selectAttributes targetInput self.TargetFieldType = some dsa_target)
    (hsn : self.SourceArrayName = some sourceArrayName)
    (htn : self.TargetArrayName = some targetArrayName)
    (hsid : dsa_source.PedigreeIds = some sourceIdArray)
    (htid : dsa_target.PedigreeIds = some targetIdArray)
    (harr : GetAbstractArray dsa_source sourceArrayName = some sourceArray) :
    (∀ s t : Nat,
      (sourceIndexToTargetIndex sourceIdArray targetIdArray).lookup s = some t ↔
        ∃ id, sourceIdArray[s]? = some id ∧
          (∀ s2, s < s2 → sourceIdArray[s2]? ≠ some id) ∧
          targetIdArray[t]? = some id ∧
          (∀ t2, t < t2 → targetIdArray[t2]? ≠ some id)) ∧
    RequestData self targetInput sourceInput =
      some (1, withAttributes targetInput self.TargetFieldType
        (AddArray dsa_target targetArrayName
          (transferArray self.DefaultValue
            (sourceIndexToTargetIndex sourceIdArray targetIdArray)
            sourceArray targetIdArray.length).targetArray)) := by
  refine ⟨fun s t => sourceIndexToTargetIndex_lookup sourceIdArray targetIdArray s t, ?_⟩
  rw [requestData_of_valid self targetInput sourceInput dsa_source dsa_target sourceArrayName
    targetArrayName sourceIdArray targetIdArray sourceArray hs ht hsn htn hsid htid harr]
  simp [hdirect]

/-- C19 on the example of the specification, source identifiers `[A,B,C]` and
target identifiers `[C,A,D]`: the call succeeds although `D` has no source
element. -/
theorem index_construction_entries_witness :
    RequestData
      { DirectMapping := false, DefaultValue := -1, SourceArrayName := some "s",
        TargetArrayName := some "t",
        SourceFieldType := FieldAssociations.FIELD_ASSOCIATION_ROWS,
        TargetFieldType := FieldAssociations.FIELD_ASSOCIATION_ROWS }
      (vtkDataObject.Table { PedigreeIds := some ['C', 'A', 'D'], Arrays := [] })
      (vtkDataObject.Table
        { PedigreeIds := some ['A', 'B', 'C'], Arrays := [("s", [10, 20, 30])] }) =
    some (1, vtkDataObject.Table
      { PedigreeIds := some ['C', 'A', 'D'],
        Arrays := [("t", (transferArray (-1)
          (sourceIndexToTargetIndex ['A', 'B', 'C'] ['C', 'A', 'D'])
          [10, 20, 30] 3).targetArray)] }) :=
  (index_construction_entries
    { DirectMapping := false, DefaultValue := -1, SourceArrayName := some "s",
      TargetArrayName := some "t",
      SourceFieldType := FieldAssociations.FIELD_ASSOCIATION_ROWS,
      TargetFieldType := FieldAssociations.FIELD_ASSOCIATION_ROWS }
    (vtkDataObject.Table { PedigreeIds := some ['C', 'A', 'D'], Arrays := [] })
    (vtkDataObject.Table { PedigreeIds := some ['A', 'B', 'C'], Arrays := [("s", [10, 20, 30])] })
    { PedigreeIds := some ['A', 'B', 'C'], Arrays := [("s", [10, 20, 30])] }
    { PedigreeIds := some ['C', 'A', 'D'], Arrays := [] } "s" "t" ['A', 'B', 'C']
    ['C', 'A', 'D'] [10, 20, 30] rfl rfl rfl rfl rfl rfl rfl rfl).2

/-! ### The positions written by the copy loop -/

/-- The identity map binds positions below `n` only. -/
theorem identityMap_lookup_lt (n k v : Nat) (h : (identityMap n).lookup k = some v) :
    v < n := by
  induction n with
  | zero => simp [identityMap] at h
  | succ n ih =>
    rw [identityMap_succ, List.lookup_cons] at h
    by_cases hk : k = n
    · subst hk
      simp at h
      omega
    · have hb : (k == n) = false := by simpa using hk
      rw [hb] at h
      have := ih h
      omega

/-- One round of the copy loop keeps every bound position and every written
position below `T`, provided a read of an unbound source position can only
happen when `T` is positive. -/
theorem copyStep_written_lt (src : List Int) (T : Nat) (st : CopyState) (i : Nat)
    (hread : st.index.lookup i = none → 0 < T)
    (hidx : ∀ k v, st.index.lookup k = some v → v < T)
    (hw : ∀ t ∈ st.written, t < T) :
    (∀ k v, (copyStep src st i).index.lookup k = some v → v < T) ∧
    (∀ k, (copyStep src st i).index.lookup k = none → st.index.lookup k = none) ∧
    (∀ t ∈ (copyStep src st i).written, t < T) := by
  cases hl : st.index.lookup i with
  | some v0 =>
    have hm : mapIndex st.index i = (v0, st.index) := mapIndex_of_lookup hl
    have hv0 : v0 < T := hidx i v0 hl
    by_cases hneg : src.getD i 0 < 0
    · simp only [copyStep, hm, if_pos hneg]
      exact ⟨hidx, fun k hk => hk, hw⟩
    · simp only [copyStep, hm, if_neg hneg]
      refine ⟨hidx, fun k hk => hk, ?_⟩
      intro t ht
      rcases List.mem_append.mp ht with h1 | h1
      · exact hw t h1
      · rw [List.mem_singleton.mp h1]
        exact hv0
  | none =>
    have hT : 0 < T := hread hl
    have hm : mapIndex st.index i = (0, (i, 0) :: st.index) := by simp [mapIndex, hl]
    have hidx2 : ∀ k v, ((i, 0) :: st.index).lookup k = some v → v < T := by
      intro k v hkv
      rw [List.lookup_cons] at hkv
      by_cases hk : k = i
      · subst hk
        simp at hkv
        omega
      · have hb : (k == i) = false := by simpa using hk
        rw [hb] at hkv
        exact hidx k v hkv
    have hnone2 : ∀ k, ((i, 0) :: st.index).lookup k = none → st.index.lookup k = none := by
      intro k hk
      rw [List.lookup_cons] at hk
      by_cases hki : k = i
      · subst hki
        simp at hk
      · have hb : (k == i) = false := by simpa using hki
        rw [hb] at hk
        exact hk
    by_cases hneg : src.getD i 0 < 0
    · simp only [copyStep, hm, if_pos hneg]
      exact ⟨hidx2, hnone2, hw⟩
    · simp only [copyStep, hm, if_neg hneg]
      refine ⟨hidx2, hnone2, ?_⟩
      intro t ht
      rcases List.mem_append.mp ht with h1 | h1
      · exact hw t h1
      · rw [List.mem_singleton.mp h1]
        exact hT

/-- The copy loop over any list of source positions keeps every written
position below `T`, under the conditions of `copyStep_written_lt`. -/
theorem copyLoop_written_lt (src : List Int) (T : Nat) (positions : List Nat) :
    ∀ st : CopyState,
      (∀ i ∈ positions, st.index.lookup i = none → 0 < T) →
      (∀ k v, st.index.lookup k = some v → v < T) →
      (∀ t ∈ st.written, t < T) →
      ∀ t ∈ (positions.foldl (copyStep src) st).written, t < T := by
  induction positions with
  | nil => intro st _ _ hw; exact hw
  | cons i rest ih =>
    intro st hread hidx hw
    obtain ⟨h1, h2, h3⟩ := copyStep_written_lt src T st i
      (hread i (List.mem_cons_self i rest)) hidx hw
    exact ih (copyStep src st i)
      (fun j hj hnone => hread j (List.mem_cons_of_mem i hj) (h2 j hnone)) h1 h3

/-- In direct mapping, with the source array no longer than the identifier
array and `|source| <= |target|`, every position written by the copy loop is a
valid position of the output array. -/
theorem transferArray_direct_written_lt (d : Int) (n T : Nat) (src : List Int)
    (hlen : src.length ≤ n) (hle : n ≤ T) :
    ∀ t ∈ (transferArray d (identityMap n) src T).written, t < T := by
  unfold transferArray
  refine copyLoop_written_lt src T (List.range src.length) _ ?_ ?_ ?_
  · intro i hi hnone
    have hi2 : i < n := by
      have := List.mem_range.mp hi
      omega
    rw [identityMap_lookup n i hi2] at hnone
    exact Option.noConfusion hnone
  · intro k v h
    have := identityMap_lookup_lt n k v h
    omega
  · intro t ht
    simp at ht

/-- In identifier mapping with a target of at least one element, every
position written by the copy loop is a valid position of the output array. -/
theorem transferArray_mapped_written_lt {ι : Type} [DecidableEq ι] (d : Int)
    (sourceIdArray targetIdArray : List ι) (src : List Int)
    (hT : 0 < targetIdArray.length) :
    ∀ t ∈ (transferArray d (sourceIndexToTargetIndex sourceIdArray targetIdArray) src
      targetIdArray.length).written, t < targetIdArray.length := by
  unfold transferArray
  refine copyLoop_written_lt src targetIdArray.length (List.range src.length) _ ?_ ?_ ?_
  · intro i _ _
    exact hT
  · intro k v h
    obtain ⟨id, -, -, h3, -⟩ :=
      (sourceIndexToTargetIndex_lookup sourceIdArray targetIdArray k v).mp h
    by_contra hge
    rw [List.getElem?_eq_none (by omega)] at h3
    exact Option.noConfusion h3
  · intro t ht
    simp at ht

/-- C23 (code defect), evaluated in identifier-mapping mode at source
identifiers `[A]` with values `[10]` and a target with no element: the
configuration passes validation and the call returns success, the index is
empty, and the copy loop hands position `0` to `SetTuple` although the output
array has no position at all.  (With a target of at least one element, and in
direct mapping, every written position is valid: see
`transferArray_mapped_written_lt` and `transferArray_direct_written_lt`.) -/
theorem requestData_write_outside_empty_target :
    sourceIndexToTargetIndex ['A'] ([] : List Char) = [] ∧
    (transferArray (-1) (sourceIndexToTargetIndex ['A'] ([] : List Char)) [10] 0).written
      = [0] ∧
    (¬ ∀ t ∈ (transferArray (-1) (sourceIndexToTargetIndex ['A'] ([] : List Char))
        [10] 0).written, t < ([] : List Char).length) ∧
    RequestData
      { DirectMapping := false, DefaultValue := -1, SourceArrayName := some "s",
        TargetArrayName := some "t",
        SourceFieldType := FieldAssociations.FIELD_ASSOCIATION_ROWS,
        TargetFieldType := FieldAssociations.FIELD_ASSOCIATION_ROWS }
      (vtkDataObject.Table { PedigreeIds := some ([] : List Char), Arrays := [] })
      (vtkDataObject.Table { PedigreeIds := some ['A'], Arrays := [("s", [10])] })
    = some (1, vtkDataObject.Table
        { PedigreeIds := some ([] : List Char), Arrays := [("t", [])] }) := by
  decide

end vtkTransferAttributes
